import Mathlib

/-!
# Verification of bandw (src/test5.cpp)

A shallow embedding of the raw-Ethernet bandwidth-metering tool `bandw`
(single source file `src/test5.cpp`) and proofs of the specified properties.

Modelling conventions:
* A frame is a `List Nat` of bytes (each byte a `Nat`); the full frame is
  `frame_max_size = ETH_FRAME_LEN = 1514` bytes, of which the first
  `ETH_HLEN = 14` are the Ethernet header and the rest the payload.
* The process's native byte order is an abstract parameter `ByteOrder`
  (an encoder/decoder pair between 32-bit values and 4-byte sequences);
  the source stores `magic` and the sequence number through a plain
  `uint32_t*` cast, i.e. in native order, with no endianness conversion.
  `littleEndian` is one concrete instance, used for witnesses.
* Operating-system effects (the two `ioctl` queries, `bind`, the byte
  counts returned by `sendto`/`recvfrom`, the bytes delivered by
  `recvfrom`, and the measured elapsed time) are inputs, collected in
  `OsEnv`.  `sendRes i` / `recvRes i` are the results of the i-th
  `sendto` / `recvfrom` call of the (single) send / receive loop of the
  chosen role.
* Each run produces a trace of I/O `Event`s (the `sendto`/`recvfrom`
  calls in program order) together with an `Except` result; the fatal
  `return -1` paths of the source become the `RunError` constructors
  named by the specification's error taxonomy.
* `double` arithmetic of the bandwidth report is modelled exactly over
  `ℚ` (the computed values are well inside the range where `double` is
  exact for the byte count, and the claims concern the guard and the
  formula, not rounding).
-/

/-! ## Constants (linux headers and test5.cpp) -/

/-- `ETH_ALEN`: octets in a hardware (MAC) address. -/
def ETH_ALEN : Nat := 6

/-- `ETH_HLEN`: total octets in the Ethernet header. -/
def ETH_HLEN : Nat := 14

/-- `ETH_ZLEN`: minimal frame size, header + minimal payload. -/
def ETH_ZLEN : Nat := 60

/-- `ETH_DATA_LEN`: maximal payload octets in a frame. -/
def ETH_DATA_LEN : Nat := 1500

/-- `ETH_FRAME_LEN` = `ETH_HLEN + ETH_DATA_LEN`. -/
def ETH_FRAME_LEN : Nat := 1514

/-- `ETH_P_IP`: the IP protocol id, used by test5.cpp as a camouflage
protocol type ("pretend we're an established protocol type"). -/
def ETH_P_IP : Nat := 0x0800

/-- `AF_PACKET` address family. -/
def AF_PACKET : Nat := 17

/-- `ARPHRD_ETHER` hardware type. -/
def ARPHRD_ETHER : Nat := 1

/-- `PACKET_OTHERHOST` packet type. -/
def PACKET_OTHERHOST : Nat := 3

/-- `static const uint32_t magic = 0x32100123;` -/
def magic : Nat := 0x32100123

/-- `static const size_t frame_min_size = ETH_ZLEN;` -/
def frame_min_size : Nat := ETH_ZLEN

/-- `static const size_t frame_max_size = ETH_FRAME_LEN;` -/
def frame_max_size : Nat := ETH_FRAME_LEN

/-- `static const size_t packet_size = ETH_DATA_LEN;` -/
def packet_size : Nat := ETH_DATA_LEN

/-! ## Byte-sequence primitives -/

/-- Overwrite the bytes of `f` starting at offset `off` with `bs`
(the effect of a `memcpy`/`uint32_t*` store into a larger buffer). -/
def setBytes (f : List Nat) (off : Nat) (bs : List Nat) : List Nat :=
  f.take off ++ bs ++ f.drop (off + bs.length)

/-- Read `len` bytes of `f` starting at offset `off`. -/
def extract (f : List Nat) (off len : Nat) : List Nat :=
  (f.drop off).take len

/-- An abstract native byte order of the running process: how a 32-bit
value lies in memory as four bytes.  `dec` reads a 32-bit value back
from four bytes; `dec_enc` says the round trip recovers the value
(truncated to 32 bits, as a `uint32_t` store is). -/
structure ByteOrder where
  enc : Nat → List Nat
  dec : List Nat → Nat
  enc_len : ∀ x, (enc x).length = 4
  dec_enc : ∀ x, dec (enc x) = x % 2 ^ 32

/-- Little-endian byte order, a concrete `ByteOrder` instance. -/
def littleEndian : ByteOrder where
  enc x := [x % 256, x / 256 % 256, x / 65536 % 256, x / 16777216 % 256]
  dec l := match l with
    | a :: b :: c :: d :: _ => a + b * 256 + c * 65536 + d * 16777216
    | _ => 0
  enc_len _ := rfl
  dec_enc x := by
    show x % 256 + x / 256 % 256 * 256 + x / 65536 % 256 * 65536 +
      x / 16777216 % 256 * 16777216 = x % 2 ^ 32
    omega

/-! ## The embedded program

`src/test5.cpp` is embedded below.  `init_ethhdr_and_saddr` mirrors the
function of the same name; `sendLoop` / `recvLoop` are the four
`for (uint32_t i = 0; ...)` loops of `main` (the transmitter and the
responder run textually identical loop bodies); `mainRun` is the part of
`main` after command-line parsing (parsing and validation are the
excluded CLI collaborator, which hands over a validated `Config`). -/

/-- The two bytes a `htons` store of a 16-bit value puts in memory:
network (big-endian) order on every platform. -/
def htons16 (x : Nat) : List Nat := [x / 256 % 256, x % 256]

/-- `sockaddr_ll`, with the two multi-byte scalar fields that `htons`
fills (`sll_protocol`) kept as their in-memory byte sequence. -/
structure SockAddrLL where
  sll_family : Nat
  sll_protocol : List Nat
  sll_ifindex : Int
  sll_hatype : Nat
  sll_pkttype : Nat
  sll_halen : Nat
  sll_addr : List Nat
  deriving DecidableEq, Repr

/-- `init_ethhdr_and_saddr` of test5.cpp.

The Ethernet header is written directly into the first `ETH_HLEN` bytes
of the send frame (the source passes `*reinterpret_cast<ethhdr*>(frame0)`):
`h_dest` = bytes 0..5, `h_source` = bytes 6..11, `h_proto` = bytes 12..13.
The two `ioctl` queries are inputs: `ioctlIndex` / `ioctlHwaddr` are
`none` when the query fails (`-1 == ioctl(...)`) and otherwise carry the
interface index / the `sa_data` bytes of the hardware address.
Returns (`bool` result, frame, socket address); on failure the fields
already assigned before the failing query keep their values, exactly as
in the source. -/
def init_ethhdr_and_saddr (target : List Nat) (ioctlIndex : Option Int)
    (ioctlHwaddr : Option (List Nat)) (frame0 : List Nat) :
    Bool × List Nat × SockAddrLL :=
  let saddr1 : SockAddrLL :=
    { sll_family := AF_PACKET
      sll_protocol := htons16 ETH_P_IP
      sll_ifindex := 0
      sll_hatype := ARPHRD_ETHER
      sll_pkttype := PACKET_OTHERHOST
      sll_halen := ETH_ALEN
      sll_addr := target.take ETH_ALEN ++ [0, 0] }
  let frame1 := setBytes frame0 0 (target.take ETH_ALEN)
  match ioctlIndex with
  | none => (false, frame1, saddr1)
  | some idx =>
    let saddr2 := { saddr1 with sll_ifindex := idx }
    match ioctlHwaddr with
    | none => (false, frame1, saddr2)
    | some hw =>
      let frame2 := setBytes frame1 ETH_ALEN (hw.take ETH_ALEN)
      let frame3 := setBytes frame2 (2 * ETH_ALEN) (htons16 ETH_P_IP)
      (true, frame3, saddr2)

/-- The per-iteration payload store of the send loops:
`reinterpret_cast<uint32_t*>(payload0)[0] = magic;`
`reinterpret_cast<uint32_t*>(payload0)[1] = i;`
— two native-byte-order 32-bit stores at payload offsets 0 and 4
(frame offsets `ETH_HLEN` and `ETH_HLEN + 4`).  The loop counter is a
`uint32_t`, hence the truncation of `i`. -/
def writeSeq (bo : ByteOrder) (f : List Nat) (i : Nat) : List Nat :=
  setBytes (setBytes f ETH_HLEN (bo.enc magic)) (ETH_HLEN + 4) (bo.enc (i % 2 ^ 32))

/-- The payload check of the receive loops:
`reinterpret_cast<uint32_t*>(payload1)[0] != magic || ...[1] != i`
— `true` iff the two native-order 32-bit words at payload offsets 0 and
4 equal `magic` and the (32-bit) expected sequence number. -/
def payloadOk (bo : ByteOrder) (f : List Nat) (i : Nat) : Bool :=
  bo.dec (extract f ETH_HLEN 4) == magic &&
  bo.dec (extract f (ETH_HLEN + 4) 4) == i % 2 ^ 32

/-- One observable I/O call of a run: a `sendto` (with the frame passed
to it and the byte count it returned) or a `recvfrom` (with the byte
count it returned and the bytes it delivered). -/
inductive Event where
  | sendEv (frame : List Nat) (res : Nat)
  | recvEv (cnt : Nat) (bytes : List Nat)
  deriving DecidableEq, Repr

/-- The fatal-exit paths of the run (each a one-line diagnostic on
stderr followed by `return -1` in the source), named as in the
specification's error taxonomy. -/
inductive RunError where
  | InterfaceLookupError
  | ChannelOpenError
  | ChannelBindError
  | ShortSendError
  | ShortReceiveError
  | SequenceMismatchError
  deriving DecidableEq, Repr

/-- The transmitter's report: either the degenerate zero-elapsed-time
outcome (`printf("session failed\n")`, no numbers computed), or the
statistics line with elapsed seconds, bytes transceived and bandwidth
(`double` arithmetic modelled exactly over `ℚ`). -/
inductive TxReport where
  | sessionFailed
  | stats (seconds : ℚ) (transceived : Nat) (bandwidth : ℚ)
  deriving DecidableEq, Repr

/-- A send loop of `main` (both roles run the same loop): for
`i` in `[start, start + n)`, write `(magic, i)` into the send frame's
payload, `sendto` the full frame, and abort with `ShortSendError`
(`"sendto() failed to send requested byte count"`) unless exactly
`frame_max_size` bytes were sent.  `sendRes i` is the byte count the
i-th `sendto` returned.  Returns the trace of `sendto` calls made and
either the final send frame or the error. -/
def sendLoop (bo : ByteOrder) (sendRes : Nat → Nat) (frame0 : List Nat)
    (start n : Nat) : List Event × Except RunError (List Nat) :=
  match n with
  | 0 => ([], .ok frame0)
  | m + 1 =>
    let f := writeSeq bo frame0 start
    let s := sendRes start
    if s = frame_max_size then
      let rest := sendLoop bo sendRes f (start + 1) m
      (.sendEv f s :: rest.1, rest.2)
    else
      ([.sendEv f s], .error .ShortSendError)

/-- A receive loop of `main` (both roles run the same loop): for `i` in
`[start, start + n)`, `recvfrom` into the receive frame, abort with
`ShortReceiveError` (`"recvfrom() got unexpected byte count"`) unless
exactly `frame_max_size` bytes arrived, then abort with
`SequenceMismatchError` (`"bad response/request package %u"`) unless the
payload starts with `(magic, i)`.  `recvRes i` is the (byte count,
delivered bytes) of the i-th `recvfrom`.  Returns the trace of
`recvfrom` calls made and the outcome. -/
def recvLoop (bo : ByteOrder) (recvRes : Nat → Nat × List Nat)
    (start n : Nat) : List Event × Except RunError Unit :=
  match n with
  | 0 => ([], .ok ())
  | m + 1 =>
    let c := (recvRes start).1
    let bs := (recvRes start).2
    if c = frame_max_size then
      if payloadOk bo bs start then
        let rest := recvLoop bo recvRes (start + 1) m
        (.recvEv c bs :: rest.1, rest.2)
      else
        ([.recvEv c bs], .error .SequenceMismatchError)
    else
      ([.recvEv c bs], .error .ShortReceiveError)

/-- The validated configuration handed to the core by the excluded CLI
collaborator: target hardware address (8 bytes, last two unused),
packet count, role flag. -/
structure Config where
  target : List Nat
  packet_count : Nat
  transmitter : Bool

/-- The operating-system side of a run: results of the `ioctl` queries,
of `bind`, of `socket`, the per-call `sendto` / `recvfrom` results, and
the elapsed monotonic time `timer_nsec() - t0` (a `uint64_t`) the run
measures. -/
structure OsEnv where
  socketOk : Bool
  ioctlIndex : Option Int
  ioctlHwaddr : Option (List Nat)
  bindOk : Bool
  sendRes : Nat → Nat
  recvRes : Nat → Nat × List Nat
  elapsedNs : Nat

/-- The transmitter branch of `main`: send phase, receive phase, then
the timing report (`if (0 != dt) ... else printf("session failed")`). -/
def txRun (bo : ByteOrder) (env : OsEnv) (cfg : Config) (frame0 : List Nat) :
    List Event × Except RunError (Option TxReport) :=
  let s := sendLoop bo env.sendRes frame0 0 cfg.packet_count
  match s.2 with
  | .error e => (s.1, .error e)
  | .ok _ =>
    let r := recvLoop bo env.recvRes 0 cfg.packet_count
    match r.2 with
    | .error e => (s.1 ++ r.1, .error e)
    | .ok _ =>
      if env.elapsedNs = 0 then
        (s.1 ++ r.1, .ok (some .sessionFailed))
      else
        let transcieved : Nat := 2 * packet_size * cfg.packet_count
        let sec : ℚ := (env.elapsedNs : ℚ) / 10 ^ 9
        (s.1 ++ r.1, .ok (some (.stats sec transcieved ((transcieved : ℚ) / sec))))

/-- The responder branch of `main`: receive phase, then send phase, no
report. -/
def rxRun (bo : ByteOrder) (env : OsEnv) (cfg : Config) (frame0 : List Nat) :
    List Event × Except RunError (Option TxReport) :=
  let r := recvLoop bo env.recvRes 0 cfg.packet_count
  match r.2 with
  | .error e => (r.1, .error e)
  | .ok _ =>
    let s := sendLoop bo env.sendRes frame0 0 cfg.packet_count
    match s.2 with
    | .error e => (r.1 ++ s.1, .error e)
    | .ok _ => (r.1 ++ s.1, .ok none)

/-- `main` of test5.cpp after command-line parsing: allocate the two
frame buffers (`frame0Init` is the send frame's arbitrary initial
`malloc` contents), open the raw socket (`ChannelOpenError` on
failure), build header and socket address (`InterfaceLookupError` when
either `ioctl` fails), `bind` (`ChannelBindError` on failure), then run
the configured role's loops.  Returns the trace of `sendto`/`recvfrom`
calls in program order and the outcome. -/
def mainRun (bo : ByteOrder) (env : OsEnv) (cfg : Config)
    (frame0Init : List Nat) : List Event × Except RunError (Option TxReport) :=
  if env.socketOk then
    let ir := init_ethhdr_and_saddr cfg.target env.ioctlIndex env.ioctlHwaddr frame0Init
    if ir.1 then
      if env.bindOk then
        if cfg.transmitter then txRun bo env cfg ir.2.1
        else rxRun bo env cfg ir.2.1
      else ([], .error .ChannelBindError)
    else ([], .error .InterfaceLookupError)
  else ([], .error .ChannelOpenError)

/-! ## Helper predicates on a run's environment -/

/-- The first `i` `sendto` calls of a send loop all report the full
frame length. -/
def sendCleanUpto (sendRes : Nat → Nat) (i : Nat) : Prop :=
  ∀ j, j < i → sendRes j = frame_max_size

/-- The first `i` `recvfrom` calls of a receive loop all deliver a
full-length frame with the expected `(magic, j)` payload. -/
def recvCleanUpto (bo : ByteOrder) (recvRes : Nat → Nat × List Nat) (i : Nat) : Prop :=
  ∀ j, j < i → (recvRes j).1 = frame_max_size ∧ payloadOk bo (recvRes j).2 j = true

/-- The one-time setup of a run succeeded: the raw socket was created,
both interface queries answered, and `bind` succeeded. -/
def setupOk (env : OsEnv) : Prop :=
  env.socketOk = true ∧ (∃ i, env.ioctlIndex = some i) ∧
    (∃ h, env.ioctlHwaddr = some h) ∧ env.bindOk = true

/-! ## Concrete fixtures (used by the witness theorems) -/

/-- A zeroed full-length frame. -/
def frameZero : List Nat := List.replicate frame_max_size 0

/-- A full-length frame whose payload starts with `(magic, i)` in
little-endian order (zero elsewhere). -/
def goodFrame (i : Nat) : List Nat := writeSeq littleEndian frameZero i

/-- An environment in which every operating-system call succeeds and
every received frame is the expected one. -/
def envW : OsEnv :=
  { socketOk := true
    ioctlIndex := some 2
    ioctlHwaddr := some [1, 2, 3, 4, 5, 6]
    bindOk := true
    sendRes := fun _ => frame_max_size
    recvRes := fun i => (frame_max_size, goodFrame i)
    elapsedNs := 7 }

/-- A one-packet configuration for the given role. -/
def cfgW (tx : Bool) : Config :=
  { target := [9, 8, 7, 6, 5, 4, 0, 0], packet_count := 1, transmitter := tx }

/-- The payload of `goodFrame i` on its own (1500 bytes starting with
`(magic, i)` in little-endian order). -/
def payloadGood (i : Nat) : List Nat := extract (goodFrame i) ETH_HLEN ETH_DATA_LEN
/-! ### Lemmas about setBytes / extract -/

theorem setBytes_length {f : List Nat} {off : Nat} {bs : List Nat}
    (h : off + bs.length ≤ f.length) : (setBytes f off bs).length = f.length := by
  simp only [setBytes, List.length_append, List.length_take, List.length_drop]
  omega

theorem extract_length {f : List Nat} {off len : Nat} (h : off + len ≤ f.length) :
    (extract f off len).length = len := by
  simp only [extract, List.length_take, List.length_drop]
  omega

theorem extract_length' (f : List Nat) (o l : Nat) :
    (extract f o l).length = min l (f.length - o) := by
  simp [extract, List.length_take, List.length_drop]

theorem getElem?_extract {f : List Nat} {off len k : Nat} (hk : k < len) :
    (extract f off len)[k]? = f[off + k]? := by
  simp [extract, List.getElem?_take, hk, List.getElem?_drop]

theorem getElem?_setBytes (f : List Nat) (off : Nat) (bs : List Nat) (j : Nat)
    (hoff : off ≤ f.length) :
    (setBytes f off bs)[j]? =
      if j < off then f[j]?
      else if j < off + bs.length then bs[j - off]?
      else f[j]? := by
  have htl : (f.take off).length = off := by
    simp [List.length_take]
    omega
  by_cases h1 : j < off
  · rw [setBytes, List.getElem?_append_left (by simp [htl]; omega),
      List.getElem?_append_left (by omega), List.getElem?_take_of_lt h1,
      if_pos h1]
  · by_cases h2 : j < off + bs.length
    · rw [setBytes, List.getElem?_append_left (by simp [htl]; omega),
        List.getElem?_append_right (by omega), htl, if_neg h1, if_pos h2]
    · rw [setBytes, List.getElem?_append_right (by simp [htl]; omega),
        List.getElem?_drop, if_neg h1, if_neg h2]
      congr 1
      simp [htl]
      omega

theorem extract_setBytes_self {f : List Nat} {off : Nat} {bs : List Nat}
    (h : off + bs.length ≤ f.length) :
    extract (setBytes f off bs) off bs.length = bs := by
  apply List.ext_getElem?
  intro k
  by_cases hk : k < bs.length
  · rw [getElem?_extract hk, getElem?_setBytes _ _ _ _ (by omega),
      if_neg (by omega), if_pos (by omega)]
    congr 1
    omega
  · have a1 : (extract (setBytes f off bs) off bs.length).length ≤ k := by
      rw [extract_length', setBytes_length h]
      omega
    rw [List.getElem?_eq_none a1, List.getElem?_eq_none (by omega)]

theorem extract_setBytes_outside {f : List Nat} {off : Nat} {bs : List Nat}
    {o l : Nat} (h : o + l ≤ off ∨ off + bs.length ≤ o)
    (hin : off + bs.length ≤ f.length) :
    extract (setBytes f off bs) o l = extract f o l := by
  apply List.ext_getElem?
  intro k
  by_cases hk : k < l
  · rw [getElem?_extract hk, getElem?_extract hk,
      getElem?_setBytes _ _ _ _ (by omega)]
    rcases h with h | h
    · rw [if_pos (by omega)]
    · rw [if_neg (by omega), if_neg (by omega)]
  · have a1 : (extract (setBytes f off bs) o l).length ≤ k := by
      rw [extract_length', setBytes_length hin]
      omega
    have a2 : (extract f o l).length ≤ k := by
      rw [extract_length']
      omega
    rw [List.getElem?_eq_none a1, List.getElem?_eq_none a2]

theorem extract_take (f : List Nat) (o l m : Nat) (h : m ≤ l) :
    (extract f o l).take m = extract f o m := by
  simp [extract, List.take_take, Nat.min_eq_left h]

theorem extract_drop (f : List Nat) (o l m : Nat) :
    (extract f o l).drop m = extract f (o + m) (l - m) := by
  simp only [extract, List.drop_take, List.drop_drop]


theorem extract_append (f : List Nat) (o a b : Nat) :
    extract f o (a + b) = extract f o a ++ extract f (o + a) b := by
  simp [extract, List.take_add, List.drop_drop]

/-! ### Lemmas about writeSeq / payloadOk -/

theorem writeSeq_length {bo : ByteOrder} {f : List Nat} {i : Nat}
    (hf : ETH_HLEN + 8 ≤ f.length) : (writeSeq bo f i).length = f.length := by
  rw [writeSeq, setBytes_length, setBytes_length]
  · rw [bo.enc_len]
    simp only [ETH_HLEN] at hf ⊢
    omega
  · rw [bo.enc_len, setBytes_length]
    · simp only [ETH_HLEN] at hf ⊢
      omega
    · rw [bo.enc_len]
      simp only [ETH_HLEN] at hf ⊢
      omega

theorem getElem?_writeSeq_outside {bo : ByteOrder} {f : List Nat} {i j : Nat}
    (hf : ETH_HLEN + 8 ≤ f.length) (hj : j < ETH_HLEN ∨ ETH_HLEN + 8 ≤ j) :
    (writeSeq bo f i)[j]? = f[j]? := by
  have h1 : (setBytes f ETH_HLEN (bo.enc magic)).length = f.length := by
    rw [setBytes_length]
    rw [bo.enc_len]
    simp only [ETH_HLEN] at hf ⊢
    omega
  simp only [ETH_HLEN] at hf hj h1 ⊢
  rw [writeSeq]
  simp only [ETH_HLEN]
  rw [getElem?_setBytes _ _ _ _ (by rw [h1]; omega),
    getElem?_setBytes _ _ _ _ (by omega), bo.enc_len, bo.enc_len]
  rcases hj with hj | hj
  · rw [if_pos (by omega), if_pos (by omega)]
  · rw [if_neg (by omega), if_neg (by omega), if_neg (by omega), if_neg (by omega)]

theorem extract_writeSeq_magic {bo : ByteOrder} {f : List Nat} {i : Nat}
    (hf : ETH_HLEN + 8 ≤ f.length) :
    extract (writeSeq bo f i) ETH_HLEN 4 = bo.enc magic := by
  have h1 : (setBytes f ETH_HLEN (bo.enc magic)).length = f.length := by
    rw [setBytes_length]
    rw [bo.enc_len]
    simp only [ETH_HLEN] at hf ⊢
    omega
  rw [writeSeq, extract_setBytes_outside]
  · have h4 := bo.enc_len magic
    calc extract (setBytes f ETH_HLEN (bo.enc magic)) ETH_HLEN 4
        = extract (setBytes f ETH_HLEN (bo.enc magic)) ETH_HLEN (bo.enc magic).length := by
          rw [h4]
      _ = bo.enc magic := by
          apply extract_setBytes_self
          rw [h4]
          simp only [ETH_HLEN] at hf ⊢
          omega
  · left
    simp only [ETH_HLEN]
    omega
  · rw [bo.enc_len, h1]
    simp only [ETH_HLEN] at hf ⊢
    omega

theorem extract_writeSeq_seq {bo : ByteOrder} {f : List Nat} {i : Nat}
    (hf : ETH_HLEN + 8 ≤ f.length) :
    extract (writeSeq bo f i) (ETH_HLEN + 4) 4 = bo.enc (i % 2 ^ 32) := by
  have h1 : (setBytes f ETH_HLEN (bo.enc magic)).length = f.length := by
    rw [setBytes_length]
    rw [bo.enc_len]
    simp only [ETH_HLEN] at hf ⊢
    omega
  have h4 := bo.enc_len (i % 2 ^ 32)
  rw [writeSeq]
  calc extract (setBytes (setBytes f ETH_HLEN (bo.enc magic)) (ETH_HLEN + 4)
        (bo.enc (i % 2 ^ 32))) (ETH_HLEN + 4) 4
      = extract (setBytes (setBytes f ETH_HLEN (bo.enc magic)) (ETH_HLEN + 4)
        (bo.enc (i % 2 ^ 32))) (ETH_HLEN + 4) (bo.enc (i % 2 ^ 32)).length := by
        rw [h4]
    _ = bo.enc (i % 2 ^ 32) := by
        apply extract_setBytes_self
        rw [h4, h1]
        simp only [ETH_HLEN] at hf ⊢
        omega

theorem extract_writeSeq_payload {bo : ByteOrder} {f : List Nat} {i : Nat}
    (hf : ETH_HLEN + 8 ≤ f.length) :
    extract (writeSeq bo f i) ETH_HLEN 8 = bo.enc magic ++ bo.enc (i % 2 ^ 32) := by
  have : (8 : Nat) = 4 + 4 := rfl
  rw [this, extract_append, extract_writeSeq_magic hf, extract_writeSeq_seq hf]

theorem payloadOk_congr (bo : ByteOrder) {a b : List Nat}
    (h : extract a ETH_HLEN 8 = extract b ETH_HLEN 8) (i : Nat) :
    payloadOk bo a i = payloadOk bo b i := by
  have h4 : extract a ETH_HLEN 4 = extract b ETH_HLEN 4 := by
    rw [← extract_take a ETH_HLEN 8 4 (by omega),
      ← extract_take b ETH_HLEN 8 4 (by omega), h]
  have h8 : extract a (ETH_HLEN + 4) 4 = extract b (ETH_HLEN + 4) 4 := by
    have ha := extract_drop a ETH_HLEN 8 4
    have hb := extract_drop b ETH_HLEN 8 4
    norm_num at ha hb
    rw [← ha, ← hb, h]
  rw [payloadOk, payloadOk, h4, h8]

theorem payloadOk_eq_false_iff {bo : ByteOrder} {f : List Nat} {i : Nat} :
    payloadOk bo f i = false ↔
      (bo.dec (extract f ETH_HLEN 4) ≠ magic ∨
       bo.dec (extract f (ETH_HLEN + 4) 4) ≠ i % 2 ^ 32) := by
  rw [payloadOk]
  cases h1 : (bo.dec (extract f ETH_HLEN 4) == magic) <;>
    cases h2 : (bo.dec (extract f (ETH_HLEN + 4) 4) == i % 2 ^ 32) <;>
    simp_all

theorem payloadOk_writeSeq {bo : ByteOrder} {f : List Nat} {i : Nat}
    (hf : ETH_HLEN + 8 ≤ f.length) :
    payloadOk bo (writeSeq bo f i) i = true := by
  rw [payloadOk, extract_writeSeq_magic hf, extract_writeSeq_seq hf,
    bo.dec_enc, bo.dec_enc]
  have h1 : magic % 2 ^ 32 = magic := by decide
  have h2 : i % 2 ^ 32 % 2 ^ 32 = i % 2 ^ 32 := by omega
  rw [h1, h2]
  simp

/-! ### Lemmas about init_ethhdr_and_saddr -/

theorem init_fst_idx_fail (t : List Nat) (h : Option (List Nat)) (f : List Nat) :
    (init_ethhdr_and_saddr t none h f).1 = false := rfl

theorem init_fst_hw_fail (t : List Nat) (i : Int) (f : List Nat) :
    (init_ethhdr_and_saddr t (some i) none f).1 = false := rfl

theorem init_fst_ok (t : List Nat) (i : Int) (hw : List Nat) (f : List Nat) :
    (init_ethhdr_and_saddr t (some i) (some hw) f).1 = true := rfl

theorem init_length (t : List Nat) (i : Int) (hw : List Nat) {f : List Nat}
    (hf : ETH_HLEN ≤ f.length) :
    (init_ethhdr_and_saddr t (some i) (some hw) f).2.1.length = f.length := by
  have ht : (t.take ETH_ALEN).length ≤ 6 := by
    rw [List.length_take]
    simp only [ETH_ALEN]
    omega
  have hh : (hw.take ETH_ALEN).length ≤ 6 := by
    rw [List.length_take]
    simp only [ETH_ALEN]
    omega
  simp only [ETH_HLEN] at hf
  show (setBytes (setBytes (setBytes f 0 (t.take ETH_ALEN)) ETH_ALEN
    (hw.take ETH_ALEN)) (2 * ETH_ALEN) (htons16 ETH_P_IP)).length = f.length
  have l1 : (setBytes f 0 (t.take ETH_ALEN)).length = f.length :=
    setBytes_length (by omega)
  have l2 : (setBytes (setBytes f 0 (t.take ETH_ALEN)) ETH_ALEN
      (hw.take ETH_ALEN)).length = f.length := by
    rw [setBytes_length]
    · exact l1
    · rw [l1]
      simp only [ETH_ALEN] at hh ⊢
      omega
  rw [setBytes_length]
  · exact l2
  · rw [show (htons16 ETH_P_IP).length = 2 from rfl, l2]
    simp only [ETH_ALEN]
    omega

/-! ### Unfolding equations for the two loops -/

theorem sendLoop_zero (bo : ByteOrder) (s : Nat → Nat) (f : List Nat) (st : Nat) :
    sendLoop bo s f st 0 = ([], .ok f) := rfl

theorem sendLoop_succ_pos {bo : ByteOrder} {s : Nat → Nat} {f : List Nat}
    {st n : Nat} (hs : s st = frame_max_size) :
    sendLoop bo s f st (n + 1) =
      (Event.sendEv (writeSeq bo f st) (s st) ::
          (sendLoop bo s (writeSeq bo f st) (st + 1) n).1,
        (sendLoop bo s (writeSeq bo f st) (st + 1) n).2) := by
  rw [sendLoop]
  simp [hs]

theorem sendLoop_succ_neg {bo : ByteOrder} {s : Nat → Nat} {f : List Nat}
    {st n : Nat} (hs : s st ≠ frame_max_size) :
    sendLoop bo s f st (n + 1) =
      ([Event.sendEv (writeSeq bo f st) (s st)], .error .ShortSendError) := by
  rw [sendLoop]
  simp [hs]

theorem recvLoop_zero (bo : ByteOrder) (r : Nat → Nat × List Nat) (st : Nat) :
    recvLoop bo r st 0 = ([], .ok ()) := rfl

theorem recvLoop_succ_good {bo : ByteOrder} {r : Nat → Nat × List Nat}
    {st n : Nat} (hc : (r st).1 = frame_max_size)
    (hp : payloadOk bo (r st).2 st = true) :
    recvLoop bo r st (n + 1) =
      (Event.recvEv (r st).1 (r st).2 :: (recvLoop bo r (st + 1) n).1,
        (recvLoop bo r (st + 1) n).2) := by
  rw [recvLoop]
  simp [hc, hp]

theorem recvLoop_succ_bad {bo : ByteOrder} {r : Nat → Nat × List Nat}
    {st n : Nat} (hc : (r st).1 = frame_max_size)
    (hp : payloadOk bo (r st).2 st = false) :
    recvLoop bo r st (n + 1) =
      ([Event.recvEv (r st).1 (r st).2], .error .SequenceMismatchError) := by
  rw [recvLoop]
  simp [hc, hp]

theorem recvLoop_succ_short {bo : ByteOrder} {r : Nat → Nat × List Nat}
    {st n : Nat} (hc : (r st).1 ≠ frame_max_size) :
    recvLoop bo r st (n + 1) =
      ([Event.recvEv (r st).1 (r st).2], .error .ShortReceiveError) := by
  rw [recvLoop]
  simp [hc]

/-! ### Structural lemmas about the send loop -/

theorem sendLoop_trace_send {bo : ByteOrder} {s : Nat → Nat} {f : List Nat}
    {st n : Nat} :
    ∀ ev ∈ (sendLoop bo s f st n).1, ∃ fr r, ev = Event.sendEv fr r := by
  induction n generalizing f st with
  | zero =>
    intro ev hev
    rw [sendLoop_zero] at hev
    simp at hev
  | succ m ih =>
    intro ev hev
    by_cases hs : s st = frame_max_size
    · rw [sendLoop_succ_pos hs] at hev
      rcases List.mem_cons.mp hev with h | h
      · exact ⟨_, _, h⟩
      · exact ih _ h
    · rw [sendLoop_succ_neg hs] at hev
      exact ⟨_, _, List.mem_singleton.mp hev⟩

theorem sendLoop_trace_spec {bo : ByteOrder} {s : Nat → Nat} {f : List Nat}
    {st n : Nat} (hf : ETH_HLEN + 8 ≤ f.length) :
    ∀ k fr r, (sendLoop bo s f st n).1[k]? = some (Event.sendEv fr r) →
      k < n ∧ r = s (st + k) ∧ fr.length = f.length ∧
      extract fr ETH_HLEN 4 = bo.enc magic ∧
      extract fr (ETH_HLEN + 4) 4 = bo.enc ((st + k) % 2 ^ 32) ∧
      (∀ j, j < ETH_HLEN ∨ ETH_HLEN + 8 ≤ j → fr[j]? = f[j]?) := by
  induction n generalizing f st with
  | zero =>
    intro k fr r h
    rw [sendLoop_zero] at h
    simp at h
  | succ m ih =>
    intro k fr r h
    have hf' : ETH_HLEN + 8 ≤ (writeSeq bo f st).length := by
      rw [writeSeq_length hf]
      exact hf
    by_cases hs : s st = frame_max_size
    · rw [sendLoop_succ_pos hs] at h
      match k, h with
      | 0, h =>
        simp only [List.getElem?_cons_zero, Option.some_inj] at h
        cases h
        refine ⟨Nat.succ_pos m, by simp, writeSeq_length hf, ?_, ?_, ?_⟩
        · exact extract_writeSeq_magic hf
        · rw [Nat.add_zero]
          exact extract_writeSeq_seq hf
        · intro j hj
          exact getElem?_writeSeq_outside hf hj
      | k' + 1, h =>
        simp only [List.getElem?_cons_succ] at h
        obtain ⟨hk, hr, hlen, hm, hsq, hout⟩ := ih hf' k' fr r h
        have harith : st + 1 + k' = st + (k' + 1) := by omega
        refine ⟨by omega, by rw [← harith]; exact hr, ?_, hm, ?_, ?_⟩
        · rw [hlen, writeSeq_length hf]
        · rw [← harith]
          exact hsq
        · intro j hj
          rw [hout j hj]
          exact getElem?_writeSeq_outside hf hj
    · rw [sendLoop_succ_neg hs] at h
      match k, h with
      | 0, h =>
        simp only [List.getElem?_cons_zero, Option.some_inj] at h
        cases h
        refine ⟨Nat.succ_pos m, by simp, writeSeq_length hf, ?_, ?_, ?_⟩
        · exact extract_writeSeq_magic hf
        · rw [Nat.add_zero]
          exact extract_writeSeq_seq hf
        · intro j hj
          exact getElem?_writeSeq_outside hf hj
      | k' + 1, h =>
        simp at h

theorem sendLoop_trace_get {bo : ByteOrder} {s : Nat → Nat} {f : List Nat}
    {st n k : Nat} (h : ∀ j, j < k → s (st + j) = frame_max_size) (hk : k < n) :
    ∃ fr, (sendLoop bo s f st n).1[k]? = some (Event.sendEv fr (s (st + k))) := by
  induction n generalizing f st k with
  | zero => omega
  | succ m ih =>
    match k with
    | 0 =>
      by_cases hs : s st = frame_max_size
      · rw [sendLoop_succ_pos hs]
        exact ⟨writeSeq bo f st, by simp⟩
      · rw [sendLoop_succ_neg hs]
        exact ⟨writeSeq bo f st, by simp⟩
    | k' + 1 =>
      have hs : s st = frame_max_size := by
        have := h 0 (by omega)
        simpa using this
      rw [sendLoop_succ_pos hs]
      have h' : ∀ j, j < k' → s (st + 1 + j) = frame_max_size := by
        intro j hj
        have := h (j + 1) (by omega)
        rw [← this]
        congr 1
        omega
      obtain ⟨fr, hfr⟩ := ih h' (by omega)
      refine ⟨fr, ?_⟩
      simp only [List.getElem?_cons_succ]
      have harith : st + 1 + k' = st + (k' + 1) := by omega
      rw [hfr, harith]

theorem sendLoop_clean_ok {bo : ByteOrder} {s : Nat → Nat} {f : List Nat}
    {st n : Nat} (h : ∀ j, j < n → s (st + j) = frame_max_size) :
    ∃ g, (sendLoop bo s f st n).2 = .ok g ∧ (sendLoop bo s f st n).1.length = n := by
  induction n generalizing f st with
  | zero => exact ⟨f, rfl, rfl⟩
  | succ m ih =>
    have hs : s st = frame_max_size := by
      have := h 0 (by omega)
      simpa using this
    have h' : ∀ j, j < m → s (st + 1 + j) = frame_max_size := by
      intro j hj
      have := h (j + 1) (by omega)
      rw [← this]
      congr 1
      omega
    obtain ⟨g, hg, hlen⟩ := ih (f := writeSeq bo f st) h'
    rw [sendLoop_succ_pos hs]
    exact ⟨g, hg, by simp [hlen]⟩

theorem sendLoop_ok_clean {bo : ByteOrder} {s : Nat → Nat} {f : List Nat}
    {st n : Nat} {g : List Nat} (h : (sendLoop bo s f st n).2 = .ok g) :
    (∀ j, j < n → s (st + j) = frame_max_size) ∧
      (sendLoop bo s f st n).1.length = n := by
  induction n generalizing f st g with
  | zero => exact ⟨by omega, rfl⟩
  | succ m ih =>
    by_cases hs : s st = frame_max_size
    · rw [sendLoop_succ_pos hs] at h ⊢
      obtain ⟨hclean, hlen⟩ := ih h
      refine ⟨?_, by simp [hlen]⟩
      intro j hj
      match j with
      | 0 => simpa using hs
      | j' + 1 =>
        have := hclean j' (by omega)
        rw [← this]
        congr 1
        omega
    · rw [sendLoop_succ_neg hs] at h
      simp at h

theorem sendLoop_short {bo : ByteOrder} {s : Nat → Nat} {f : List Nat}
    {st n k : Nat} (h : ∀ j, j < k → s (st + j) = frame_max_size) (hk : k < n)
    (hbad : s (st + k) ≠ frame_max_size) :
    (sendLoop bo s f st n).2 = .error .ShortSendError := by
  induction n generalizing f st k with
  | zero => omega
  | succ m ih =>
    match k with
    | 0 =>
      have hs : s st ≠ frame_max_size := by simpa using hbad
      rw [sendLoop_succ_neg hs]
    | k' + 1 =>
      have hs : s st = frame_max_size := by
        have := h 0 (by omega)
        simpa using this
      rw [sendLoop_succ_pos hs]
      have h' : ∀ j, j < k' → s (st + 1 + j) = frame_max_size := by
        intro j hj
        have := h (j + 1) (by omega)
        rw [← this]
        congr 1
        omega
      have hbad' : s (st + 1 + k') ≠ frame_max_size := by
        have harith : st + 1 + k' = st + (k' + 1) := by omega
        rw [harith]
        exact hbad
      exact ih h' (by omega) hbad'

/-! ### Structural lemmas about the receive loop -/

theorem recvLoop_trace_recv {bo : ByteOrder} {r : Nat → Nat × List Nat}
    {st n : Nat} :
    ∀ ev ∈ (recvLoop bo r st n).1, ∃ c bs, ev = Event.recvEv c bs := by
  induction n generalizing st with
  | zero =>
    intro ev hev
    rw [recvLoop_zero] at hev
    simp at hev
  | succ m ih =>
    intro ev hev
    by_cases hc : (r st).1 = frame_max_size
    · by_cases hp : payloadOk bo (r st).2 st = true
      · rw [recvLoop_succ_good hc hp] at hev
        rcases List.mem_cons.mp hev with h | h
        · exact ⟨_, _, h⟩
        · exact ih _ h
      · rw [recvLoop_succ_bad hc (Bool.eq_false_iff.mpr hp)] at hev
        exact ⟨_, _, List.mem_singleton.mp hev⟩
    · rw [recvLoop_succ_short hc] at hev
      exact ⟨_, _, List.mem_singleton.mp hev⟩

theorem recvLoop_clean_ok {bo : ByteOrder} {r : Nat → Nat × List Nat}
    {st n : Nat}
    (h : ∀ j, j < n → (r (st + j)).1 = frame_max_size ∧
      payloadOk bo (r (st + j)).2 (st + j) = true) :
    (recvLoop bo r st n).2 = .ok () ∧ (recvLoop bo r st n).1.length = n ∧
      ∀ k, k < n → (recvLoop bo r st n).1[k]? =
        some (Event.recvEv (r (st + k)).1 (r (st + k)).2) := by
  induction n generalizing st with
  | zero => exact ⟨rfl, rfl, by omega⟩
  | succ m ih =>
    have h0 := h 0 (by omega)
    rw [Nat.add_zero] at h0
    have h' : ∀ j, j < m → (r (st + 1 + j)).1 = frame_max_size ∧
        payloadOk bo (r (st + 1 + j)).2 (st + 1 + j) = true := by
      intro j hj
      have harith : st + 1 + j = st + (j + 1) := by omega
      rw [harith]
      exact h (j + 1) (by omega)
    obtain ⟨hok, hlen, hget⟩ := ih h'
    rw [recvLoop_succ_good h0.1 h0.2]
    refine ⟨hok, by simp [hlen], ?_⟩
    intro k hk
    match k with
    | 0 => simp
    | k' + 1 =>
      simp only [List.getElem?_cons_succ]
      have harith : st + 1 + k' = st + (k' + 1) := by omega
      rw [hget k' (by omega), harith]

theorem recvLoop_ok_clean {bo : ByteOrder} {r : Nat → Nat × List Nat}
    {st n : Nat} (h : (recvLoop bo r st n).2 = .ok ()) :
    (∀ j, j < n → (r (st + j)).1 = frame_max_size ∧
      payloadOk bo (r (st + j)).2 (st + j) = true) ∧
      (recvLoop bo r st n).1.length = n := by
  induction n generalizing st with
  | zero => exact ⟨by omega, rfl⟩
  | succ m ih =>
    by_cases hc : (r st).1 = frame_max_size
    · by_cases hp : payloadOk bo (r st).2 st = true
      · rw [recvLoop_succ_good hc hp] at h ⊢
        obtain ⟨hclean, hlen⟩ := ih h
        refine ⟨?_, by simp [hlen]⟩
        intro j hj
        match j with
        | 0 => exact ⟨by simpa using hc, by simpa using hp⟩
        | j' + 1 =>
          have harith : st + (j' + 1) = st + 1 + j' := by omega
          rw [harith]
          exact hclean j' (by omega)
      · rw [recvLoop_succ_bad hc (Bool.eq_false_iff.mpr hp)] at h
        simp at h
    · rw [recvLoop_succ_short hc] at h
      simp at h

theorem recvLoop_short {bo : ByteOrder} {r : Nat → Nat × List Nat}
    {st n k : Nat}
    (h : ∀ j, j < k → (r (st + j)).1 = frame_max_size ∧
      payloadOk bo (r (st + j)).2 (st + j) = true)
    (hk : k < n) (hbad : (r (st + k)).1 ≠ frame_max_size) :
    (recvLoop bo r st n).2 = .error .ShortReceiveError := by
  induction n generalizing st k with
  | zero => omega
  | succ m ih =>
    match k with
    | 0 =>
      have hc : (r st).1 ≠ frame_max_size := by simpa using hbad
      rw [recvLoop_succ_short hc]
    | k' + 1 =>
      have h0 := h 0 (by omega)
      rw [Nat.add_zero] at h0
      rw [recvLoop_succ_good h0.1 h0.2]
      have h' : ∀ j, j < k' → (r (st + 1 + j)).1 = frame_max_size ∧
          payloadOk bo (r (st + 1 + j)).2 (st + 1 + j) = true := by
        intro j hj
        have harith : st + 1 + j = st + (j + 1) := by omega
        rw [harith]
        exact h (j + 1) (by omega)
      have hbad' : (r (st + 1 + k')).1 ≠ frame_max_size := by
        have harith : st + 1 + k' = st + (k' + 1) := by omega
        rw [harith]
        exact hbad
      exact ih h' (by omega) hbad'

theorem recvLoop_mismatch {bo : ByteOrder} {r : Nat → Nat × List Nat}
    {st n k : Nat}
    (h : ∀ j, j < k → (r (st + j)).1 = frame_max_size ∧
      payloadOk bo (r (st + j)).2 (st + j) = true)
    (hk : k < n) (hfull : (r (st + k)).1 = frame_max_size)
    (hbad : payloadOk bo (r (st + k)).2 (st + k) = false) :
    (recvLoop bo r st n).2 = .error .SequenceMismatchError := by
  induction n generalizing st k with
  | zero => omega
  | succ m ih =>
    match k with
    | 0 =>
      rw [Nat.add_zero] at hfull hbad
      rw [recvLoop_succ_bad hfull hbad]
    | k' + 1 =>
      have h0 := h 0 (by omega)
      rw [Nat.add_zero] at h0
      rw [recvLoop_succ_good h0.1 h0.2]
      have h' : ∀ j, j < k' → (r (st + 1 + j)).1 = frame_max_size ∧
          payloadOk bo (r (st + 1 + j)).2 (st + 1 + j) = true := by
        intro j hj
        have harith : st + 1 + j = st + (j + 1) := by omega
        rw [harith]
        exact h (j + 1) (by omega)
      have harith : st + 1 + k' = st + (k' + 1) := by omega
      have hfull' : (r (st + 1 + k')).1 = frame_max_size := by
        rw [harith]
        exact hfull
      have hbad' : payloadOk bo (r (st + 1 + k')).2 (st + 1 + k') = false := by
        rw [harith]
        exact hbad
      exact ih h' (by omega) hfull' hbad'

theorem recvLoop_ext {bo : ByteOrder} {r1 r2 : Nat → Nat × List Nat}
    {st n : Nat}
    (h : ∀ j, (r1 j).1 = (r2 j).1 ∧
      extract (r1 j).2 ETH_HLEN 8 = extract (r2 j).2 ETH_HLEN 8) :
    (recvLoop bo r1 st n).2 = (recvLoop bo r2 st n).2 := by
  induction n generalizing st with
  | zero => rfl
  | succ m ih =>
    have hc := (h st).1
    have hp : payloadOk bo (r1 st).2 st = payloadOk bo (r2 st).2 st :=
      payloadOk_congr bo (h st).2 st
    by_cases h1 : (r1 st).1 = frame_max_size
    · by_cases h2 : payloadOk bo (r1 st).2 st = true
      · rw [recvLoop_succ_good h1 h2, recvLoop_succ_good (hc ▸ h1) (hp ▸ h2)]
        exact ih
      · rw [recvLoop_succ_bad h1 (Bool.eq_false_iff.mpr h2),
          recvLoop_succ_bad (hc ▸ h1) (hp ▸ Bool.eq_false_iff.mpr h2)]
    · rw [recvLoop_succ_short h1, recvLoop_succ_short (hc ▸ h1)]

/-! ### Run-level unfolding lemmas -/

theorem txRun_trace_err {bo : ByteOrder} {env : OsEnv} {cfg : Config}
    {f0 : List Nat} {e : RunError}
    (hs : (sendLoop bo env.sendRes f0 0 cfg.packet_count).2 = .error e) :
    (txRun bo env cfg f0).1 = (sendLoop bo env.sendRes f0 0 cfg.packet_count).1 := by
  rw [txRun]
  simp only [hs]

theorem txRun_trace_ok {bo : ByteOrder} {env : OsEnv} {cfg : Config}
    {f0 : List Nat} {g : List Nat}
    (hs : (sendLoop bo env.sendRes f0 0 cfg.packet_count).2 = .ok g) :
    (txRun bo env cfg f0).1 =
      (sendLoop bo env.sendRes f0 0 cfg.packet_count).1 ++
        (recvLoop bo env.recvRes 0 cfg.packet_count).1 := by
  rw [txRun]
  simp only [hs]
  rcases hr : (recvLoop bo env.recvRes 0 cfg.packet_count).2 with e | u
  · simp only [hr]
  · simp only [hr]
    by_cases hz : env.elapsedNs = 0 <;> simp [hz]

theorem txRun_result_sendFail {bo : ByteOrder} {env : OsEnv} {cfg : Config}
    {f0 : List Nat} {e : RunError}
    (hs : (sendLoop bo env.sendRes f0 0 cfg.packet_count).2 = .error e) :
    (txRun bo env cfg f0).2 = .error e := by
  rw [txRun]
  simp only [hs]

theorem txRun_result_recvFail {bo : ByteOrder} {env : OsEnv} {cfg : Config}
    {f0 : List Nat} {g : List Nat} {e : RunError}
    (hs : (sendLoop bo env.sendRes f0 0 cfg.packet_count).2 = .ok g)
    (hr : (recvLoop bo env.recvRes 0 cfg.packet_count).2 = .error e) :
    (txRun bo env cfg f0).2 = .error e := by
  rw [txRun]
  simp only [hs, hr]

theorem txRun_result_zero {bo : ByteOrder} {env : OsEnv} {cfg : Config}
    {f0 : List Nat} {g : List Nat}
    (hs : (sendLoop bo env.sendRes f0 0 cfg.packet_count).2 = .ok g)
    (hr : (recvLoop bo env.recvRes 0 cfg.packet_count).2 = .ok ())
    (hz : env.elapsedNs = 0) :
    (txRun bo env cfg f0).2 = .ok (some .sessionFailed) := by
  rw [txRun]
  simp only [hs, hr, hz]
  simp

theorem txRun_result_stats {bo : ByteOrder} {env : OsEnv} {cfg : Config}
    {f0 : List Nat} {g : List Nat}
    (hs : (sendLoop bo env.sendRes f0 0 cfg.packet_count).2 = .ok g)
    (hr : (recvLoop bo env.recvRes 0 cfg.packet_count).2 = .ok ())
    (hz : env.elapsedNs ≠ 0) :
    (txRun bo env cfg f0).2 = .ok (some (.stats
      ((env.elapsedNs : ℚ) / 10 ^ 9)
      (2 * packet_size * cfg.packet_count)
      (((2 * packet_size * cfg.packet_count : Nat) : ℚ) /
        ((env.elapsedNs : ℚ) / 10 ^ 9)))) := by
  rw [txRun]
  simp only [hs, hr, hz]
  simp [hz]

theorem rxRun_trace_err {bo : ByteOrder} {env : OsEnv} {cfg : Config}
    {f0 : List Nat} {e : RunError}
    (hr : (recvLoop bo env.recvRes 0 cfg.packet_count).2 = .error e) :
    (rxRun bo env cfg f0).1 = (recvLoop bo env.recvRes 0 cfg.packet_count).1 := by
  rw [rxRun]
  simp only [hr]

theorem rxRun_trace_ok {bo : ByteOrder} {env : OsEnv} {cfg : Config}
    {f0 : List Nat}
    (hr : (recvLoop bo env.recvRes 0 cfg.packet_count).2 = .ok ()) :
    (rxRun bo env cfg f0).1 =
      (recvLoop bo env.recvRes 0 cfg.packet_count).1 ++
        (sendLoop bo env.sendRes f0 0 cfg.packet_count).1 := by
  rw [rxRun]
  simp only [hr]
  rcases hs : (sendLoop bo env.sendRes f0 0 cfg.packet_count).2 with e | g <;>
    simp only [hs]

theorem rxRun_result_recvFail {bo : ByteOrder} {env : OsEnv} {cfg : Config}
    {f0 : List Nat} {e : RunError}
    (hr : (recvLoop bo env.recvRes 0 cfg.packet_count).2 = .error e) :
    (rxRun bo env cfg f0).2 = .error e := by
  rw [rxRun]
  simp only [hr]

theorem rxRun_result_sendFail {bo : ByteOrder} {env : OsEnv} {cfg : Config}
    {f0 : List Nat} {e : RunError}
    (hr : (recvLoop bo env.recvRes 0 cfg.packet_count).2 = .ok ())
    (hs : (sendLoop bo env.sendRes f0 0 cfg.packet_count).2 = .error e) :
    (rxRun bo env cfg f0).2 = .error e := by
  rw [rxRun]
  simp only [hr, hs]

theorem rxRun_result_ok {bo : ByteOrder} {env : OsEnv} {cfg : Config}
    {f0 : List Nat} {g : List Nat}
    (hr : (recvLoop bo env.recvRes 0 cfg.packet_count).2 = .ok ())
    (hs : (sendLoop bo env.sendRes f0 0 cfg.packet_count).2 = .ok g) :
    (rxRun bo env cfg f0).2 = .ok none := by
  rw [rxRun]
  simp only [hr, hs]

theorem mainRun_tx {bo : ByteOrder} {env : OsEnv} {cfg : Config}
    {f0 : List Nat} {idx : Int} {hw : List Nat}
    (h1 : env.socketOk = true) (hidx : env.ioctlIndex = some idx)
    (hhw : env.ioctlHwaddr = some hw) (h4 : env.bindOk = true)
    (h5 : cfg.transmitter = true) :
    mainRun bo env cfg f0 =
      txRun bo env cfg
        (init_ethhdr_and_saddr cfg.target env.ioctlIndex env.ioctlHwaddr f0).2.1 := by
  rw [mainRun]
  simp [h1, hidx, hhw, h4, h5, init_fst_ok]

theorem mainRun_rx {bo : ByteOrder} {env : OsEnv} {cfg : Config}
    {f0 : List Nat} {idx : Int} {hw : List Nat}
    (h1 : env.socketOk = true) (hidx : env.ioctlIndex = some idx)
    (hhw : env.ioctlHwaddr = some hw) (h4 : env.bindOk = true)
    (h5 : cfg.transmitter = false) :
    mainRun bo env cfg f0 =
      rxRun bo env cfg
        (init_ethhdr_and_saddr cfg.target env.ioctlIndex env.ioctlHwaddr f0).2.1 := by
  rw [mainRun]
  simp [h1, hidx, hhw, h4, h5, init_fst_ok]

theorem mainRun_lookup_fail {bo : ByteOrder} {env : OsEnv} {cfg : Config}
    {f0 : List Nat} (h1 : env.socketOk = true)
    (h : env.ioctlIndex = none ∨ env.ioctlHwaddr = none) :
    mainRun bo env cfg f0 = ([], .error .InterfaceLookupError) := by
  rw [mainRun]
  rcases h with h | h
  · simp [h1, h, init_fst_idx_fail]
  · rcases h2 : env.ioctlIndex with _ | idx
    · simp [h1, h2, init_fst_idx_fail]
    · simp [h1, h2, h, init_fst_hw_fail]

/-! ### Small helpers -/

theorem getElem?_some_mem {α : Type} {l : List α} {k : Nat} {a : α}
    (h : l[k]? = some a) : a ∈ l := by
  obtain ⟨hlt, he⟩ := List.getElem?_eq_some.mp h
  exact he ▸ List.getElem_mem hlt

theorem sendClean_shift {s : Nat → Nat} {i : Nat} (h : sendCleanUpto s i) :
    ∀ j, j < i → s (0 + j) = frame_max_size := by
  intro j hj
  rw [Nat.zero_add]
  exact h j hj

theorem recvClean_shift {bo : ByteOrder} {r : Nat → Nat × List Nat} {i : Nat}
    (h : recvCleanUpto bo r i) :
    ∀ j, j < i → (r (0 + j)).1 = frame_max_size ∧
      payloadOk bo (r (0 + j)).2 (0 + j) = true := by
  intro j hj
  rw [Nat.zero_add]
  exact h j hj

theorem recvClean_unshift {bo : ByteOrder} {r : Nat → Nat × List Nat} {n : Nat}
    (h : ∀ j, j < n → (r (0 + j)).1 = frame_max_size ∧
      payloadOk bo (r (0 + j)).2 (0 + j) = true) :
    recvCleanUpto bo r n := by
  intro j hj
  have := h j hj
  rwa [Nat.zero_add] at this

theorem extract_setBytes_self' {f : List Nat} {off : Nat} {bs : List Nat}
    {l : Nat} (hl : bs.length = l) (h : off + l ≤ f.length) :
    extract (setBytes f off bs) off l = bs := by
  subst hl
  exact extract_setBytes_self h

theorem mainRun_socket_fail {bo : ByteOrder} {env : OsEnv} {cfg : Config}
    {f0 : List Nat} (h : env.socketOk ≠ true) :
    mainRun bo env cfg f0 = ([], .error .ChannelOpenError) := by
  rw [mainRun]
  simp [h]

theorem mainRun_bind_fail {bo : ByteOrder} {env : OsEnv} {cfg : Config}
    {f0 : List Nat} {idx : Int} {hw : List Nat} (h1 : env.socketOk = true)
    (hidx : env.ioctlIndex = some idx) (hhw : env.ioctlHwaddr = some hw)
    (hb : env.bindOk ≠ true) :
    mainRun bo env cfg f0 = ([], .error .ChannelBindError) := by
  rw [mainRun]
  simp [h1, hidx, hhw, hb, init_fst_ok]

theorem goodFrame_length (i : Nat) : (goodFrame i).length = frame_max_size := by
  rw [goodFrame, writeSeq_length]
  · simp [frameZero]
  · simp only [frameZero, List.length_replicate, ETH_HLEN, frame_max_size,
      ETH_FRAME_LEN]
    omega

theorem frameZero_length : frameZero.length = frame_max_size := by
  simp [frameZero]

/-! ## Claim theorems -/

/-- C3: For every valid configuration on which the Interface Resolver
queries succeed, the constructed frame header has destination equal to
the configured target hardware address, source equal to the resolved
local interface's hardware address, and protocol equal to the fixed
constant; and the constructed socket address carries the same target
hardware address as the header's destination (all six octets equal). -/
theorem header_saddr_binding (target hw : List Nat) (idx : Int)
    (f0 : List Nat) (ht : ETH_ALEN ≤ target.length)
    (hh : ETH_ALEN ≤ hw.length) (hf : ETH_HLEN ≤ f0.length) :
    (init_ethhdr_and_saddr target (some idx) (some hw) f0).1 = true ∧
    extract (init_ethhdr_and_saddr target (some idx) (some hw) f0).2.1
      0 ETH_ALEN = target.take ETH_ALEN ∧
    extract (init_ethhdr_and_saddr target (some idx) (some hw) f0).2.1
      ETH_ALEN ETH_ALEN = hw.take ETH_ALEN ∧
    extract (init_ethhdr_and_saddr target (some idx) (some hw) f0).2.1
      (2 * ETH_ALEN) 2 = htons16 ETH_P_IP ∧
    (init_ethhdr_and_saddr target (some idx) (some hw) f0).2.2.sll_addr.take
      ETH_ALEN = target.take ETH_ALEN ∧
    extract (init_ethhdr_and_saddr target (some idx) (some hw) f0).2.1
      0 ETH_ALEN =
      (init_ethhdr_and_saddr target (some idx) (some hw) f0).2.2.sll_addr.take
        ETH_ALEN := by
  have ht6 : (target.take ETH_ALEN).length = ETH_ALEN := by
    rw [List.length_take]
    simp only [ETH_ALEN] at ht ⊢
    omega
  have hh6 : (hw.take ETH_ALEN).length = ETH_ALEN := by
    rw [List.length_take]
    simp only [ETH_ALEN] at hh ⊢
    omega
  have hlen1 : (setBytes f0 0 (target.take ETH_ALEN)).length = f0.length := by
    apply setBytes_length
    rw [ht6]
    simp only [ETH_ALEN, ETH_HLEN] at hf ⊢
    omega
  have hlen2 : (setBytes (setBytes f0 0 (target.take ETH_ALEN)) ETH_ALEN
      (hw.take ETH_ALEN)).length = f0.length := by
    rw [setBytes_length, hlen1]
    rw [hh6, hlen1]
    simp only [ETH_ALEN, ETH_HLEN] at hf ⊢
    omega
  have hdest2 : extract (init_ethhdr_and_saddr target (some idx) (some hw)
      f0).2.1 0 ETH_ALEN = target.take ETH_ALEN := by
    show extract (setBytes (setBytes (setBytes f0 0 (target.take ETH_ALEN))
      ETH_ALEN (hw.take ETH_ALEN)) (2 * ETH_ALEN) (htons16 ETH_P_IP))
      0 ETH_ALEN = target.take ETH_ALEN
    rw [extract_setBytes_outside (Or.inl (by simp only [ETH_ALEN]; omega))
      (by rw [show (htons16 ETH_P_IP).length = 2 from rfl, hlen2]
          simp only [ETH_ALEN, ETH_HLEN] at hf ⊢
          omega)]
    rw [extract_setBytes_outside (Or.inl (by simp only [ETH_ALEN]; omega))
      (by rw [hh6, hlen1]
          simp only [ETH_ALEN, ETH_HLEN] at hf ⊢
          omega)]
    apply extract_setBytes_self' ht6
    simp only [ETH_ALEN, ETH_HLEN] at hf ⊢
    omega
  have hsaddr : (init_ethhdr_and_saddr target (some idx) (some hw)
      f0).2.2.sll_addr.take ETH_ALEN = target.take ETH_ALEN := by
    show (target.take ETH_ALEN ++ [0, 0]).take ETH_ALEN = target.take ETH_ALEN
    exact List.take_left' ht6
  refine ⟨init_fst_ok target idx hw f0, hdest2, ?_, ?_, hsaddr, ?_⟩
  · show extract (setBytes (setBytes (setBytes f0 0 (target.take ETH_ALEN))
      ETH_ALEN (hw.take ETH_ALEN)) (2 * ETH_ALEN) (htons16 ETH_P_IP))
      ETH_ALEN ETH_ALEN = hw.take ETH_ALEN
    rw [extract_setBytes_outside (Or.inl (by simp only [ETH_ALEN]; omega))
      (by rw [show (htons16 ETH_P_IP).length = 2 from rfl, hlen2]
          simp only [ETH_ALEN, ETH_HLEN] at hf ⊢
          omega)]
    apply extract_setBytes_self' hh6
    rw [hlen1]
    simp only [ETH_ALEN, ETH_HLEN] at hf ⊢
    omega
  · show extract (setBytes (setBytes (setBytes f0 0 (target.take ETH_ALEN))
      ETH_ALEN (hw.take ETH_ALEN)) (2 * ETH_ALEN) (htons16 ETH_P_IP))
      (2 * ETH_ALEN) 2 = htons16 ETH_P_IP
    apply extract_setBytes_self' (show (htons16 ETH_P_IP).length = 2 from rfl)
    rw [hlen2]
    simp only [ETH_ALEN, ETH_HLEN] at hf ⊢
    omega
  · rw [hdest2, hsaddr]

/-- Witness for C3 at a concrete configuration. -/
theorem header_saddr_binding_witness :
    (init_ethhdr_and_saddr [9, 8, 7, 6, 5, 4, 0, 0] (some 2)
      (some [1, 2, 3, 4, 5, 6]) frameZero).1 = true ∧
    extract (init_ethhdr_and_saddr [9, 8, 7, 6, 5, 4, 0, 0] (some 2)
      (some [1, 2, 3, 4, 5, 6]) frameZero).2.1 0 ETH_ALEN =
      ([9, 8, 7, 6, 5, 4, 0, 0] : List Nat).take ETH_ALEN ∧
    extract (init_ethhdr_and_saddr [9, 8, 7, 6, 5, 4, 0, 0] (some 2)
      (some [1, 2, 3, 4, 5, 6]) frameZero).2.1 ETH_ALEN ETH_ALEN =
      ([1, 2, 3, 4, 5, 6] : List Nat).take ETH_ALEN ∧
    extract (init_ethhdr_and_saddr [9, 8, 7, 6, 5, 4, 0, 0] (some 2)
      (some [1, 2, 3, 4, 5, 6]) frameZero).2.1 (2 * ETH_ALEN) 2 =
      htons16 ETH_P_IP ∧
    (init_ethhdr_and_saddr [9, 8, 7, 6, 5, 4, 0, 0] (some 2)
      (some [1, 2, 3, 4, 5, 6]) frameZero).2.2.sll_addr.take ETH_ALEN =
      ([9, 8, 7, 6, 5, 4, 0, 0] : List Nat).take ETH_ALEN ∧
    extract (init_ethhdr_and_saddr [9, 8, 7, 6, 5, 4, 0, 0] (some 2)
      (some [1, 2, 3, 4, 5, 6]) frameZero).2.1 0 ETH_ALEN =
      (init_ethhdr_and_saddr [9, 8, 7, 6, 5, 4, 0, 0] (some 2)
        (some [1, 2, 3, 4, 5, 6]) frameZero).2.2.sll_addr.take ETH_ALEN :=
  header_saddr_binding [9, 8, 7, 6, 5, 4, 0, 0] [1, 2, 3, 4, 5, 6] 2 frameZero
    (by decide) (by decide) (by rw [frameZero_length]; decide)

/-- C8: For every run in which either operating-system interface query
(index lookup or hardware-address lookup) fails, the run terminates with
`InterfaceLookupError` before any frame send or receive operation is
attempted (the I/O trace is empty); and no send or receive ever precedes
a successful interface resolution (a non-empty trace implies both
queries answered). -/
theorem lookup_failure_precedes_io (bo : ByteOrder) (env : OsEnv)
    (cfg : Config) (f0 : List Nat) :
    ((env.ioctlIndex = none ∨ env.ioctlHwaddr = none) →
      (mainRun bo env cfg f0).1 = [] ∧
        (env.socketOk = true →
          (mainRun bo env cfg f0).2 = .error .InterfaceLookupError))
    ∧ ((mainRun bo env cfg f0).1 ≠ [] →
      (∃ i, env.ioctlIndex = some i) ∧ ∃ h, env.ioctlHwaddr = some h) := by
  constructor
  · intro h
    by_cases hso : env.socketOk = true
    · rw [mainRun_lookup_fail hso h]
      exact ⟨rfl, fun _ => rfl⟩
    · rw [mainRun_socket_fail hso]
      exact ⟨rfl, fun hc => absurd hc hso⟩
  · intro htr
    by_cases hso : env.socketOk = true
    · rcases hidx : env.ioctlIndex with _ | i
      · rw [mainRun_lookup_fail hso (Or.inl hidx)] at htr
        simp at htr
      · rcases hhw : env.ioctlHwaddr with _ | hws
        · rw [mainRun_lookup_fail hso (Or.inr hhw)] at htr
          simp at htr
        · exact ⟨⟨i, rfl⟩, ⟨hws, rfl⟩⟩
    · rw [mainRun_socket_fail hso] at htr
      simp at htr

/-- Witness for C8: a failing hardware-address query yields an empty
I/O trace and `InterfaceLookupError`. -/
theorem lookup_failure_precedes_io_witness :
    (mainRun littleEndian { envW with ioctlHwaddr := none } (cfgW true)
      frameZero).1 = [] ∧
    (mainRun littleEndian { envW with ioctlHwaddr := none } (cfgW true)
      frameZero).2 = .error .InterfaceLookupError := by
  obtain ⟨h1, h2⟩ := (lookup_failure_precedes_io littleEndian
    { envW with ioctlHwaddr := none } (cfgW true) frameZero).1 (Or.inr rfl)
  exact ⟨h1, h2 rfl⟩

/-- C10: Acceptance of a received frame is decided solely by the
received byte count and the first 8 bytes of the payload.  First
conjunct: two environments whose `recvfrom` results agree on the byte
count and on payload bytes 0..7 (frame bytes 14..21) — but may differ
arbitrarily elsewhere, in particular in the received Ethernet header's
destination, source and protocol fields — produce the same outcome in
both roles' protocol engines.  Second conjunct: every full-length frame
whose payload begins with `(magic, i)` is accepted (the receive loop
completes). -/
theorem acceptance_ignores_header (bo : ByteOrder) :
    (∀ env1 env2 : OsEnv, ∀ cfg : Config, ∀ f0 : List Nat,
      env1.sendRes = env2.sendRes → env1.elapsedNs = env2.elapsedNs →
      (∀ j, (env1.recvRes j).1 = (env2.recvRes j).1 ∧
        extract (env1.recvRes j).2 ETH_HLEN 8 =
          extract (env2.recvRes j).2 ETH_HLEN 8) →
      (txRun bo env1 cfg f0).2 = (txRun bo env2 cfg f0).2 ∧
        (rxRun bo env1 cfg f0).2 = (rxRun bo env2 cfg f0).2)
    ∧ (∀ r : Nat → Nat × List Nat, ∀ n : Nat, recvCleanUpto bo r n →
      (recvLoop bo r 0 n).2 = .ok ()) := by
  constructor
  · intro env1 env2 cfg f0 hs hel hrecv
    have hR : (recvLoop bo env1.recvRes 0 cfg.packet_count).2 =
        (recvLoop bo env2.recvRes 0 cfg.packet_count).2 :=
      recvLoop_ext hrecv
    constructor
    · rw [txRun, txRun, ← hs, ← hel]
      rcases hS : (sendLoop bo env1.sendRes f0 0 cfg.packet_count).2 with e | g
      · simp only [hS]
      · simp only [hS]
        rcases hr1 : (recvLoop bo env1.recvRes 0 cfg.packet_count).2 with e1 | u1
        · have hr2 := hr1
          rw [hR] at hr2
          simp only [hr1, hr2]
        · have hr2 := hr1
          rw [hR] at hr2
          simp only [hr1, hr2]
          by_cases hz : env1.elapsedNs = 0 <;> simp [hz]
    · rw [rxRun, rxRun, ← hs]
      rcases hr1 : (recvLoop bo env1.recvRes 0 cfg.packet_count).2 with e1 | u1
      · have hr2 := hr1
        rw [hR] at hr2
        simp only [hr1, hr2]
      · have hr2 := hr1
        rw [hR] at hr2
        simp only [hr1, hr2]
        rcases hS : (sendLoop bo env1.sendRes f0 0 cfg.packet_count).2 with e | g <;>
          simp only [hS]
  · intro r n hclean
    exact (recvLoop_clean_ok (recvClean_shift hclean)).1

/-- Witness for C10: replacing the whole 14-byte header of every
received frame (all-ones header versus all-twos header, same payload)
does not change the responder engine's outcome, and a full-length frame
with a correct `(magic, 0)` payload under a foreign header is
accepted. -/
theorem acceptance_ignores_header_witness :
    ((rxRun littleEndian { envW with recvRes := fun i =>
          (frame_max_size, List.replicate ETH_HLEN 1 ++ payloadGood i) }
        (cfgW false) frameZero).2 =
      (rxRun littleEndian { envW with recvRes := fun i =>
          (frame_max_size, List.replicate ETH_HLEN 2 ++ payloadGood i) }
        (cfgW false) frameZero).2)
    ∧ (recvLoop littleEndian (fun i =>
        (frame_max_size, List.replicate ETH_HLEN 2 ++ payloadGood i))
        0 1).2 = .ok () := by
  constructor
  · refine ((acceptance_ignores_header littleEndian).1 _ _ (cfgW false)
      frameZero rfl rfl ?_).2
    intro j
    exact ⟨rfl, rfl⟩
  · apply (acceptance_ignores_header littleEndian).2
    intro j hj
    have hj0 : j = 0 := by omega
    subst hj0
    exact ⟨rfl, by decide⟩

/-- C1: In both roles, whenever a received full-length frame's payload
has a first 32-bit word different from the magic constant or a second
32-bit word different from the expected sequence index `i`, the run
aborts immediately with `SequenceMismatchError`; for no received
payload `(magic, k)` with `k ≠ i` does the run silently accept the
frame or resynchronize to `k`.  (`hclean` says the receives before `i`
were accepted; `hsend` lets the transmitter reach its receive phase;
the role flag is arbitrary.) -/
theorem sequence_mismatch_aborts (bo : ByteOrder) (env : OsEnv)
    (cfg : Config) (f0 : List Nat) (hsetup : setupOk env)
    (hsend : ∀ j, env.sendRes j = frame_max_size)
    (i : Nat) (hi : i < cfg.packet_count)
    (hclean : recvCleanUpto bo env.recvRes i)
    (hfull : (env.recvRes i).1 = frame_max_size)
    (hbad : bo.dec (extract (env.recvRes i).2 ETH_HLEN 4) ≠ magic ∨
      bo.dec (extract (env.recvRes i).2 (ETH_HLEN + 4) 4) ≠ i % 2 ^ 32) :
    (mainRun bo env cfg f0).2 = .error .SequenceMismatchError := by
  obtain ⟨h1, ⟨idx, hidx⟩, ⟨hw, hhw⟩, h4⟩ := hsetup
  have hpb : payloadOk bo (env.recvRes i).2 i = false :=
    payloadOk_eq_false_iff.mpr hbad
  have hfull' : (env.recvRes (0 + i)).1 = frame_max_size := by
    rw [Nat.zero_add]
    exact hfull
  have hpb' : payloadOk bo (env.recvRes (0 + i)).2 (0 + i) = false := by
    rw [Nat.zero_add]
    exact hpb
  have hrecv : (recvLoop bo env.recvRes 0 cfg.packet_count).2 =
      .error .SequenceMismatchError :=
    recvLoop_mismatch (recvClean_shift hclean) hi hfull' hpb'
  rcases hb : cfg.transmitter with _ | _
  · rw [mainRun_rx h1 hidx hhw h4 hb]
    exact rxRun_result_recvFail hrecv
  · rw [mainRun_tx h1 hidx hhw h4 hb]
    obtain ⟨g, hg, _⟩ := sendLoop_clean_ok (fun j _ => hsend (0 + j))
    exact txRun_result_recvFail hg hrecv

/-- Witness for C1: a received frame carrying `(magic, 1)` where
`(magic, 0)` is expected aborts the transmitter with
`SequenceMismatchError`. -/
theorem sequence_mismatch_aborts_witness :
    (mainRun littleEndian
      { envW with recvRes := fun i => (frame_max_size, goodFrame (i + 1)) }
      (cfgW true) frameZero).2 = .error .SequenceMismatchError :=
  sequence_mismatch_aborts littleEndian
    { envW with recvRes := fun i => (frame_max_size, goodFrame (i + 1)) }
    (cfgW true) frameZero
    ⟨rfl, ⟨2, rfl⟩, ⟨[1, 2, 3, 4, 5, 6], rfl⟩, rfl⟩
    (fun _ => rfl) 0 (by decide)
    (fun j hj => absurd hj (Nat.not_lt_zero j))
    rfl (Or.inr (by decide))

/-- C2: For every iteration index in either role, a `sendto` returning
a byte count different from `frame_max_size` aborts the run immediately
with `ShortSendError`, and a `recvfrom` returning a byte count
different from `frame_max_size` aborts the run immediately with
`ShortReceiveError`, regardless of the iteration's position, with no
retry.  (The auxiliary implications let the run reach the faulty
iteration: the faulting phase's earlier calls succeeded, and for the
role whose other phase runs first, that phase completed.) -/
theorem short_io_aborts (bo : ByteOrder) (env : OsEnv) (cfg : Config)
    (f0 : List Nat) (hsetup : setupOk env)
    (i : Nat) (hi : i < cfg.packet_count) :
    ((cfg.transmitter = false → recvCleanUpto bo env.recvRes cfg.packet_count) →
      sendCleanUpto env.sendRes i → env.sendRes i ≠ frame_max_size →
      (mainRun bo env cfg f0).2 = .error .ShortSendError)
    ∧ ((cfg.transmitter = true → sendCleanUpto env.sendRes cfg.packet_count) →
      recvCleanUpto bo env.recvRes i → (env.recvRes i).1 ≠ frame_max_size →
      (mainRun bo env cfg f0).2 = .error .ShortReceiveError) := by
  obtain ⟨h1, ⟨idx, hidx⟩, ⟨hw, hhw⟩, h4⟩ := hsetup
  constructor
  · intro hother hclean hbad
    have hbad' : env.sendRes (0 + i) ≠ frame_max_size := by
      rw [Nat.zero_add]
      exact hbad
    have hserr : ∀ fr : List Nat,
        (sendLoop bo env.sendRes fr 0 cfg.packet_count).2 =
          .error .ShortSendError :=
      fun fr => sendLoop_short (sendClean_shift hclean) hi hbad'
    rcases hb : cfg.transmitter with _ | _
    · obtain ⟨hok, _, _⟩ := recvLoop_clean_ok (recvClean_shift (hother hb))
      rw [mainRun_rx h1 hidx hhw h4 hb]
      exact rxRun_result_sendFail hok (hserr _)
    · rw [mainRun_tx h1 hidx hhw h4 hb]
      exact txRun_result_sendFail (hserr _)
  · intro hother hclean hbad
    have hbad' : (env.recvRes (0 + i)).1 ≠ frame_max_size := by
      rw [Nat.zero_add]
      exact hbad
    have hrerr : (recvLoop bo env.recvRes 0 cfg.packet_count).2 =
        .error .ShortReceiveError :=
      recvLoop_short (recvClean_shift hclean) hi hbad'
    rcases hb : cfg.transmitter with _ | _
    · rw [mainRun_rx h1 hidx hhw h4 hb]
      exact rxRun_result_recvFail hrerr
    · rw [mainRun_tx h1 hidx hhw h4 hb]
      have hsAll : ∀ j, j < cfg.packet_count →
          env.sendRes (0 + j) = frame_max_size := by
        intro j hj
        rw [Nat.zero_add]
        exact hother hb j hj
      obtain ⟨g, hg, _⟩ := sendLoop_clean_ok
        (f := (init_ethhdr_and_saddr cfg.target env.ioctlIndex
          env.ioctlHwaddr f0).2.1) hsAll
      exact txRun_result_recvFail hg hrerr

/-- Witness for C2: a 100-byte `sendto` result aborts a transmitter run
with `ShortSendError`; a 100-byte `recvfrom` result aborts it with
`ShortReceiveError`. -/
theorem short_io_aborts_witness :
    (mainRun littleEndian { envW with sendRes := fun _ => 100 } (cfgW true)
      frameZero).2 = .error .ShortSendError ∧
    (mainRun littleEndian
      { envW with recvRes := fun i => (100, goodFrame i) } (cfgW true)
      frameZero).2 = .error .ShortReceiveError := by
  constructor
  · exact (short_io_aborts littleEndian { envW with sendRes := fun _ => 100 }
      (cfgW true) frameZero
      ⟨rfl, ⟨2, rfl⟩, ⟨[1, 2, 3, 4, 5, 6], rfl⟩, rfl⟩ 0 (by decide)).1
      (fun hc => by simp [cfgW] at hc)
      (fun j hj => absurd hj (Nat.not_lt_zero j))
      (by decide)
  · exact (short_io_aborts littleEndian
      { envW with recvRes := fun i => (100, goodFrame i) }
      (cfgW true) frameZero
      ⟨rfl, ⟨2, rfl⟩, ⟨[1, 2, 3, 4, 5, 6], rfl⟩, rfl⟩ 0 (by decide)).2
      (fun _ j hj => rfl)
      (fun j hj => absurd hj (Nat.not_lt_zero j))
      (by decide)

/-- C4: In the Transmitter's send phase, for every sequence index `i`
in `[0, packetCount)` in increasing order, the first 8 bytes of the
send frame's payload are set to the 4-byte magic constant `0x32100123`
followed by the 4-byte value `i`, both in the native byte order of the
running process (the same abstract `ByteOrder` encoder, no conversion),
before the full frame is sent: the i-th `sendto` event carries exactly
that frame. -/
theorem send_phase_writes_payload (bo : ByteOrder) (env : OsEnv)
    (cfg : Config) (f0 : List Nat) (hsetup : setupOk env)
    (hrole : cfg.transmitter = true) (hf : f0.length = frame_max_size)
    (i : Nat) (hi : i < cfg.packet_count)
    (hclean : sendCleanUpto env.sendRes i) :
    ∃ fr, (mainRun bo env cfg f0).1[i]? =
        some (Event.sendEv fr (env.sendRes i)) ∧
      extract fr ETH_HLEN 4 = bo.enc magic ∧
      extract fr (ETH_HLEN + 4) 4 = bo.enc (i % 2 ^ 32) ∧
      extract fr ETH_HLEN 8 = bo.enc magic ++ bo.enc (i % 2 ^ 32) := by
  obtain ⟨h1, ⟨idx, hidx⟩, ⟨hw, hhw⟩, h4⟩ := hsetup
  rw [mainRun_tx h1 hidx hhw h4 hrole]
  have hF22 : ETH_HLEN + 8 ≤ (init_ethhdr_and_saddr cfg.target
      env.ioctlIndex env.ioctlHwaddr f0).2.1.length := by
    rw [hidx, hhw, init_length cfg.target idx hw (by rw [hf]; decide), hf]
    decide
  obtain ⟨fr, hfr⟩ := @sendLoop_trace_get bo env.sendRes
    (init_ethhdr_and_saddr cfg.target env.ioctlIndex env.ioctlHwaddr f0).2.1
    0 cfg.packet_count i (sendClean_shift hclean) hi
  rw [Nat.zero_add] at hfr
  obtain ⟨_, _, _, hm, hsq, _⟩ :=
    sendLoop_trace_spec hF22 i fr (env.sendRes i) hfr
  rw [Nat.zero_add] at hsq
  refine ⟨fr, ?_, hm, hsq, ?_⟩
  · obtain ⟨hlt, _⟩ := List.getElem?_eq_some.mp hfr
    rcases hS : (sendLoop bo env.sendRes (init_ethhdr_and_saddr cfg.target
        env.ioctlIndex env.ioctlHwaddr f0).2.1 0 cfg.packet_count).2 with e | g
    · rw [txRun_trace_err hS]
      exact hfr
    · rw [txRun_trace_ok hS, List.getElem?_append_left hlt]
      exact hfr
  · rw [show (8 : Nat) = 4 + 4 from rfl, extract_append, hm, hsq]

/-- Witness for C4: the transmitter's first `sendto` carries a frame
whose payload bytes 0..7 are the little-endian bytes of `(magic, 0)`. -/
theorem send_phase_writes_payload_witness :
    ∃ fr, (mainRun littleEndian envW (cfgW true) frameZero).1[0]? =
        some (Event.sendEv fr (envW.sendRes 0)) ∧
      extract fr ETH_HLEN 4 = littleEndian.enc magic ∧
      extract fr (ETH_HLEN + 4) 4 = littleEndian.enc (0 % 2 ^ 32) ∧
      extract fr ETH_HLEN 8 =
        littleEndian.enc magic ++ littleEndian.enc (0 % 2 ^ 32) :=
  send_phase_writes_payload littleEndian envW (cfgW true) frameZero
    ⟨rfl, ⟨2, rfl⟩, ⟨[1, 2, 3, 4, 5, 6], rfl⟩, rfl⟩ rfl frameZero_length
    0 (by decide) (fun j hj => absurd hj (Nat.not_lt_zero j))

/-- C6: On a completed Transmitter run that reports statistics, the
reported total bytes transceived equals exactly
`2 × packet_size × packetCount`; in particular with `packetCount =
1000` the reported value is 3,000,000.  (With a zero measured duration
the run reports the degenerate outcome instead and no byte count, see
the zero-elapsed guard.) -/
theorem transmitter_reported_bytes (bo : ByteOrder) (env : OsEnv)
    (cfg : Config) (f0 : List Nat) (s : ℚ) (b : Nat) (bw : ℚ)
    (h : (mainRun bo env cfg f0).2 = .ok (some (.stats s b bw))) :
    b = 2 * packet_size * cfg.packet_count ∧
      (cfg.packet_count = 1000 → b = 3000000) := by
  suffices hb : b = 2 * packet_size * cfg.packet_count by
    refine ⟨hb, ?_⟩
    intro h1000
    rw [hb, h1000]
    decide
  by_cases hso : env.socketOk = true
  case neg =>
    rw [mainRun_socket_fail hso] at h
    simp at h
  rcases hidx : env.ioctlIndex with _ | idx
  · rw [mainRun_lookup_fail hso (Or.inl hidx)] at h
    simp at h
  rcases hhw : env.ioctlHwaddr with _ | hw
  · rw [mainRun_lookup_fail hso (Or.inr hhw)] at h
    simp at h
  by_cases hbind : env.bindOk = true
  case neg =>
    rw [mainRun_bind_fail hso hidx hhw hbind] at h
    simp at h
  rcases hb2 : cfg.transmitter with _ | _
  · rw [mainRun_rx hso hidx hhw hbind hb2] at h
    rcases hr : (recvLoop bo env.recvRes 0 cfg.packet_count).2 with e | u
    · rw [rxRun_result_recvFail hr] at h
      simp at h
    · cases u
      rcases hS : (sendLoop bo env.sendRes (init_ethhdr_and_saddr cfg.target
          env.ioctlIndex env.ioctlHwaddr f0).2.1 0 cfg.packet_count).2 with e | g
      · rw [rxRun_result_sendFail hr hS] at h
        simp at h
      · rw [rxRun_result_ok hr hS] at h
        simp at h
  · rw [mainRun_tx hso hidx hhw hbind hb2] at h
    rcases hS : (sendLoop bo env.sendRes (init_ethhdr_and_saddr cfg.target
        env.ioctlIndex env.ioctlHwaddr f0).2.1 0 cfg.packet_count).2 with e | g
    · rw [txRun_result_sendFail hS] at h
      simp at h
    · rcases hr : (recvLoop bo env.recvRes 0 cfg.packet_count).2 with e | u
      · rw [txRun_result_recvFail hS hr] at h
        simp at h
      · cases u
        by_cases hz : env.elapsedNs = 0
        · rw [txRun_result_zero hS hr hz] at h
          simp at h
        · rw [txRun_result_stats hS hr hz] at h
          simp only [Except.ok.injEq, Option.some.injEq,
            TxReport.stats.injEq] at h
          exact h.2.1.symm

/-- Witness for C6 at a one-packet transmitter run. -/
theorem transmitter_reported_bytes_witness :
    2 * packet_size * (cfgW true).packet_count =
        2 * packet_size * (cfgW true).packet_count ∧
      ((cfgW true).packet_count = 1000 →
        2 * packet_size * (cfgW true).packet_count = 3000000) := by
  apply transmitter_reported_bytes littleEndian envW (cfgW true) frameZero
    ((envW.elapsedNs : ℚ) / 10 ^ 9)
    (2 * packet_size * (cfgW true).packet_count)
    (((2 * packet_size * (cfgW true).packet_count : Nat) : ℚ) /
      ((envW.elapsedNs : ℚ) / 10 ^ 9))
  rw [mainRun_tx rfl rfl rfl rfl rfl]
  exact txRun_result_stats rfl rfl (by decide)

/-- C7: In the Transmitter role with both phases completing cleanly, a
measured elapsed duration of exactly zero produces the degenerate
"session failed" report and no bandwidth value is ever computed; a
non-zero duration produces the statistics report whose bandwidth is the
byte total divided by the elapsed seconds. -/
theorem zero_elapsed_guard (bo : ByteOrder) (env : OsEnv) (cfg : Config)
    (f0 : List Nat) (hsetup : setupOk env) (hrole : cfg.transmitter = true)
    (hsend : sendCleanUpto env.sendRes cfg.packet_count)
    (hrecv : recvCleanUpto bo env.recvRes cfg.packet_count) :
    (env.elapsedNs = 0 →
      (mainRun bo env cfg f0).2 = .ok (some .sessionFailed)) ∧
    (env.elapsedNs ≠ 0 →
      (mainRun bo env cfg f0).2 = .ok (some (.stats
        ((env.elapsedNs : ℚ) / 10 ^ 9)
        (2 * packet_size * cfg.packet_count)
        (((2 * packet_size * cfg.packet_count : Nat) : ℚ) /
          ((env.elapsedNs : ℚ) / 10 ^ 9))))) := by
  obtain ⟨h1, ⟨idx, hidx⟩, ⟨hw, hhw⟩, h4⟩ := hsetup
  have hsAll : ∀ j, j < cfg.packet_count →
      env.sendRes (0 + j) = frame_max_size := by
    intro j hj
    rw [Nat.zero_add]
    exact hsend j hj
  obtain ⟨g, hg, _⟩ := sendLoop_clean_ok
    (f := (init_ethhdr_and_saddr cfg.target env.ioctlIndex
      env.ioctlHwaddr f0).2.1) hsAll
  obtain ⟨hok, _, _⟩ := recvLoop_clean_ok (recvClean_shift hrecv)
  constructor
  · intro hz
    rw [mainRun_tx h1 hidx hhw h4 hrole]
    exact txRun_result_zero hg hok hz
  · intro hz
    rw [mainRun_tx h1 hidx hhw h4 hrole]
    exact txRun_result_stats hg hok hz

/-- Witness for C7: with zero measured duration the run reports
"session failed"; with 7 ns it reports the statistics triple. -/
theorem zero_elapsed_guard_witness :
    (mainRun littleEndian { envW with elapsedNs := 0 } (cfgW true)
      frameZero).2 = .ok (some .sessionFailed) ∧
    (mainRun littleEndian envW (cfgW true) frameZero).2 = .ok (some (.stats
      ((envW.elapsedNs : ℚ) / 10 ^ 9)
      (2 * packet_size * (cfgW true).packet_count)
      (((2 * packet_size * (cfgW true).packet_count : Nat) : ℚ) /
        ((envW.elapsedNs : ℚ) / 10 ^ 9)))) := by
  constructor
  · exact (zero_elapsed_guard littleEndian { envW with elapsedNs := 0 }
      (cfgW true) frameZero ⟨rfl, ⟨2, rfl⟩, ⟨[1, 2, 3, 4, 5, 6], rfl⟩, rfl⟩
      rfl (fun j hj => rfl)
      (fun j hj => ⟨rfl, payloadOk_writeSeq (by rw [frameZero_length]; decide)⟩)).1
      rfl
  · exact (zero_elapsed_guard littleEndian envW (cfgW true) frameZero
      ⟨rfl, ⟨2, rfl⟩, ⟨[1, 2, 3, 4, 5, 6], rfl⟩, rfl⟩
      rfl (fun j hj => rfl)
      (fun j hj => ⟨rfl, payloadOk_writeSeq (by rw [frameZero_length]; decide)⟩)).2
      (by decide)

/-- C9: After one-time setup, every frame handed to `sendto` in either
role agrees with the frame produced by `init_ethhdr_and_saddr` on every
byte outside the 8-byte sequenced-payload area: the 14-byte header
written at setup, and all payload bytes past the first 8, are unchanged
across all iterations of a run. -/
theorem send_frame_header_stable (bo : ByteOrder) (env : OsEnv)
    (cfg : Config) (f0 : List Nat) (hf : f0.length = frame_max_size) :
    ∀ fr r, Event.sendEv fr r ∈ (mainRun bo env cfg f0).1 →
      ∀ j, j < ETH_HLEN ∨ ETH_HLEN + 8 ≤ j →
        fr[j]? = (init_ethhdr_and_saddr cfg.target env.ioctlIndex
          env.ioctlHwaddr f0).2.1[j]? := by
  intro fr r hmem j hj
  by_cases hso : env.socketOk = true
  case neg =>
    rw [mainRun_socket_fail hso] at hmem
    simp at hmem
  rcases hidx : env.ioctlIndex with _ | idx
  · rw [mainRun_lookup_fail hso (Or.inl hidx)] at hmem
    simp at hmem
  rcases hhw : env.ioctlHwaddr with _ | hw
  · rw [mainRun_lookup_fail hso (Or.inr hhw)] at hmem
    simp at hmem
  by_cases hbind : env.bindOk = true
  case neg =>
    rw [mainRun_bind_fail hso hidx hhw hbind] at hmem
    simp at hmem
  have hF22 : ETH_HLEN + 8 ≤ (init_ethhdr_and_saddr cfg.target
      env.ioctlIndex env.ioctlHwaddr f0).2.1.length := by
    rw [hidx, hhw, init_length cfg.target idx hw (by rw [hf]; decide), hf]
    decide
  rcases hb : cfg.transmitter with _ | _
  · rw [mainRun_rx hso hidx hhw hbind hb] at hmem
    rcases hr : (recvLoop bo env.recvRes 0 cfg.packet_count).2 with e | u
    · rw [rxRun_trace_err hr] at hmem
      obtain ⟨c, bs, hcb⟩ := recvLoop_trace_recv _ hmem
      exact Event.noConfusion hcb
    · cases u
      rw [rxRun_trace_ok hr] at hmem
      rcases List.mem_append.mp hmem with hm | hm
      · obtain ⟨c, bs, hcb⟩ := recvLoop_trace_recv _ hm
        exact Event.noConfusion hcb
      · obtain ⟨k, hk⟩ := List.getElem?_of_mem hm
        obtain ⟨_, _, _, _, _, hout⟩ := sendLoop_trace_spec hF22 k fr r hk
        rw [hidx, hhw] at hout
        exact hout j hj
  · rw [mainRun_tx hso hidx hhw hbind hb] at hmem
    rcases hS : (sendLoop bo env.sendRes (init_ethhdr_and_saddr cfg.target
        env.ioctlIndex env.ioctlHwaddr f0).2.1 0 cfg.packet_count).2 with e | g
    · rw [txRun_trace_err hS] at hmem
      obtain ⟨k, hk⟩ := List.getElem?_of_mem hmem
      obtain ⟨_, _, _, _, _, hout⟩ := sendLoop_trace_spec hF22 k fr r hk
      rw [hidx, hhw] at hout
      exact hout j hj
    · rw [txRun_trace_ok hS] at hmem
      rcases List.mem_append.mp hmem with hm | hm
      · obtain ⟨k, hk⟩ := List.getElem?_of_mem hm
        obtain ⟨_, _, _, _, _, hout⟩ := sendLoop_trace_spec hF22 k fr r hk
        rw [hidx, hhw] at hout
        exact hout j hj
      · obtain ⟨c, bs, hcb⟩ := recvLoop_trace_recv _ hm
        exact Event.noConfusion hcb

/-- Witness for C9: byte 0 (a header byte) of the first frame the
transmitter sends equals byte 0 of the setup frame. -/
theorem send_frame_header_stable_witness :
    (writeSeq littleEndian (init_ethhdr_and_saddr (cfgW true).target
      envW.ioctlIndex envW.ioctlHwaddr frameZero).2.1 0)[0]? =
    (init_ethhdr_and_saddr (cfgW true).target envW.ioctlIndex
      envW.ioctlHwaddr frameZero).2.1[0]? := by
  have hmem : Event.sendEv (writeSeq littleEndian (init_ethhdr_and_saddr
      (cfgW true).target envW.ioctlIndex envW.ioctlHwaddr frameZero).2.1 0)
      frame_max_size ∈ (mainRun littleEndian envW (cfgW true) frameZero).1 :=
    getElem?_some_mem (k := 0) rfl
  exact send_frame_header_stable littleEndian envW (cfgW true) frameZero
    frameZero_length _ _ hmem 0 (Or.inl (by decide))

/-- C5: The Responder executes its two phases in the reverse order of
the Transmitter.  In every responder run: any `sendto` event sits at
trace position ≥ packetCount and implies the first packetCount trace
entries are all `recvfrom` events (no send before all receives); the
run reports no timing or bandwidth result (a successful outcome carries
`none`); a successful run validated every received payload; and on a
successful run the i-th frame of the subsequent send phase, at trace
position packetCount + i, is full-length and carries `(magic, i)`. -/
theorem responder_phase_order (bo : ByteOrder) (env : OsEnv) (cfg : Config)
    (f0 : List Nat) (hsetup : setupOk env) (hrole : cfg.transmitter = false)
    (hf : f0.length = frame_max_size) :
    (∀ k fr r, (mainRun bo env cfg f0).1[k]? = some (Event.sendEv fr r) →
      cfg.packet_count ≤ k ∧
        ∀ j, j < cfg.packet_count →
          ∃ c bs, (mainRun bo env cfg f0).1[j]? = some (Event.recvEv c bs))
    ∧ (∀ o, (mainRun bo env cfg f0).2 = .ok o → o = none)
    ∧ ((mainRun bo env cfg f0).2 = .ok none →
        recvCleanUpto bo env.recvRes cfg.packet_count)
    ∧ ((mainRun bo env cfg f0).2 = .ok none →
        ∀ i, i < cfg.packet_count →
          ∃ fr, (mainRun bo env cfg f0).1[cfg.packet_count + i]? =
              some (Event.sendEv fr frame_max_size) ∧
            extract fr ETH_HLEN 8 = bo.enc magic ++ bo.enc (i % 2 ^ 32)) := by
  obtain ⟨h1, ⟨idx, hidx⟩, ⟨hw, hhw⟩, h4⟩ := hsetup
  rw [mainRun_rx h1 hidx hhw h4 hrole]
  have hF22 : ETH_HLEN + 8 ≤ (init_ethhdr_and_saddr cfg.target
      env.ioctlIndex env.ioctlHwaddr f0).2.1.length := by
    rw [hidx, hhw, init_length cfg.target idx hw (by rw [hf]; decide), hf]
    decide
  refine ⟨?_, ?_, ?_, ?_⟩
  · intro k fr r hk
    rcases hr : (recvLoop bo env.recvRes 0 cfg.packet_count).2 with e | u
    · rw [rxRun_trace_err hr] at hk
      obtain ⟨c, bs, hcb⟩ := recvLoop_trace_recv _ (getElem?_some_mem hk)
      exact Event.noConfusion hcb
    · cases u
      rw [rxRun_trace_ok hr] at hk
      obtain ⟨hcleanR, hlenR⟩ := recvLoop_ok_clean hr
      obtain ⟨_, _, hget⟩ := recvLoop_clean_ok hcleanR
      by_cases hklt :
          k < (recvLoop bo env.recvRes 0 cfg.packet_count).1.length
      · rw [List.getElem?_append_left hklt] at hk
        obtain ⟨c, bs, hcb⟩ := recvLoop_trace_recv _ (getElem?_some_mem hk)
        exact Event.noConfusion hcb
      · constructor
        · rw [hlenR] at hklt
          omega
        · intro j hj
          have hjlt :
              j < (recvLoop bo env.recvRes 0 cfg.packet_count).1.length := by
            rw [hlenR]
            omega
          rw [rxRun_trace_ok hr, List.getElem?_append_left hjlt]
          exact ⟨(env.recvRes (0 + j)).1, (env.recvRes (0 + j)).2, hget j hj⟩
  · intro o ho
    rcases hr : (recvLoop bo env.recvRes 0 cfg.packet_count).2 with e | u
    · rw [rxRun_result_recvFail hr] at ho
      simp at ho
    · cases u
      rcases hS : (sendLoop bo env.sendRes (init_ethhdr_and_saddr cfg.target
          env.ioctlIndex env.ioctlHwaddr f0).2.1 0 cfg.packet_count).2 with e | g
      · rw [rxRun_result_sendFail hr hS] at ho
        simp at ho
      · rw [rxRun_result_ok hr hS] at ho
        simp only [Except.ok.injEq] at ho
        exact ho.symm
  · intro ho
    rcases hr : (recvLoop bo env.recvRes 0 cfg.packet_count).2 with e | u
    · rw [rxRun_result_recvFail hr] at ho
      simp at ho
    · cases u
      exact recvClean_unshift (recvLoop_ok_clean hr).1
  · intro ho i hi
    rcases hr : (recvLoop bo env.recvRes 0 cfg.packet_count).2 with e | u
    · rw [rxRun_result_recvFail hr] at ho
      simp at ho
    · cases u
      rcases hS : (sendLoop bo env.sendRes (init_ethhdr_and_saddr cfg.target
          env.ioctlIndex env.ioctlHwaddr f0).2.1 0 cfg.packet_count).2 with e | g
      · rw [rxRun_result_sendFail hr hS] at ho
        simp at ho
      · obtain ⟨hsClean, hslen⟩ := sendLoop_ok_clean hS
        obtain ⟨fr, hfr⟩ := @sendLoop_trace_get bo env.sendRes
          (init_ethhdr_and_saddr cfg.target env.ioctlIndex
            env.ioctlHwaddr f0).2.1 0 cfg.packet_count i
          (fun j hj => hsClean j (by omega)) hi
        have hres : env.sendRes (0 + i) = frame_max_size := hsClean i hi
        rw [hres] at hfr
        obtain ⟨_, _, _, hm, hsq, _⟩ :=
          sendLoop_trace_spec hF22 i fr frame_max_size hfr
        rw [Nat.zero_add] at hsq
        refine ⟨fr, ?_, ?_⟩
        · rw [rxRun_trace_ok hr]
          obtain ⟨_, hlenR⟩ := recvLoop_ok_clean hr
          rw [List.getElem?_append_right (by rw [hlenR]; omega), hlenR,
            show cfg.packet_count + i - cfg.packet_count = i from by omega]
          exact hfr
        · rw [show (8 : Nat) = 4 + 4 from rfl, extract_append, hm, hsq]

/-- Witness for C5: in a successful one-packet responder run, the trace
entry after the receive phase is a full-length send carrying
`(magic, 0)`. -/
theorem responder_phase_order_witness :
    ∃ fr, (mainRun littleEndian envW (cfgW false)
        frameZero).1[(cfgW false).packet_count + 0]? =
      some (Event.sendEv fr frame_max_size) ∧
      extract fr ETH_HLEN 8 =
        littleEndian.enc magic ++ littleEndian.enc (0 % 2 ^ 32) :=
  (responder_phase_order littleEndian envW (cfgW false) frameZero
    ⟨rfl, ⟨2, rfl⟩, ⟨[1, 2, 3, 4, 5, 6], rfl⟩, rfl⟩ rfl
    frameZero_length).2.2.2 rfl 0 (by decide)
